import Mathlib

/-!
# Shallow embedding of the tiny-ts-deno type checkers

Each variant of the checker (`sub.ts`, `recfunc.ts`, `poly.ts`, `rec.ts`) is
embedded in its own namespace.  Recursive functions over types and terms are
given an explicit fuel parameter (structural recursion on `Nat`), so that every
definition is executable and concrete runs reduce by `rfl`/`decide`; `none`
means the fuel ran out.  The TypeScript sources are total on all the inputs the
claims exercise except where noted (the equi-recursive comparator diverges on
non-contractive `Rec` types), and the fuel-indexed statements make the needed
fuel explicit.  Exceptions raised by `error(...)`/`throw` are modelled with
`Except String`.
-/

/-- Short-circuiting conjunction of an `Option Bool` check over a list:
mirrors the TypeScript loops that `return false` on the first failing element
and fall through to `true`.  `none` (out of fuel) propagates. -/
def optAll {α : Type} (f : α → Option Bool) : List α → Option Bool
  | [] => some true
  | a :: rest => (f a).bind fun b => if b then optAll f rest else some false

theorem optAll_eq_true_iff {α : Type} (f : α → Option Bool) (l : List α) :
    optAll f l = some true ↔ ∀ a ∈ l, f a = some true := by
  induction l with
  | nil => simp [optAll]
  | cons a rest ih =>
    simp only [optAll]
    cases hfa : f a with
    | none => simp [hfa]
    | some b =>
      cases b with
      | false => simp [hfa]
      | true => simp [hfa, ih]

/-- Membership in the zip of two lists, stated positionally. -/
theorem forall_mem_zip_iff {α β : Type} {l1 : List α} {l2 : List β} {P : α × β → Prop} :
    (∀ pq ∈ l1.zip l2, P pq) ↔
      (∀ i (h1 : i < l1.length) (h2 : i < l2.length), P (l1.get ⟨i, h1⟩, l2.get ⟨i, h2⟩)) := by
  induction l1 generalizing l2 with
  | nil => simp
  | cons a l1 ih =>
    cases l2 with
    | nil => simp
    | cons b l2 =>
      constructor
      · intro h i h1 h2
        cases i with
        | zero => exact h (a, b) (by simp)
        | succ i =>
          exact ih.mp (fun pq hpq => h pq (by simp [hpq]))
            i (by simpa using h1) (by simpa using h2)
      · intro h pq hpq
        simp only [List.zip_cons_cons, List.mem_cons] at hpq
        rcases hpq with rfl | hpq
        · exact h 0 (by simp) (by simp)
        · exact ih.mpr
            (fun i h1 h2 => by simpa using h (i+1) (by simpa using h1) (by simpa using h2))
            pq hpq

theorem mem_zip_self {α : Type} {l : List α} {pq : α × α} (h : pq ∈ l.zip l) :
    pq.1 = pq.2 ∧ pq.1 ∈ l := by
  induction l with
  | nil => simp at h
  | cons a rest ih =>
    simp only [List.zip_cons_cons, List.mem_cons] at h
    rcases h with rfl | h
    · exact ⟨rfl, by simp⟩
    · exact ⟨(ih h).1, List.mem_cons_of_mem a (ih h).2⟩

/-- `props.find((p) => p.name === name)` -/
def findProp? {τ : Type} (props : List (String × τ)) (name : String) : Option (String × τ) :=
  props.find? (fun q => q.1 == name)

/-- The per-prop check common to the object cases of `typeEq`/`subtype`:
look the name up in `props1`, fail if absent, otherwise relate the two types. -/
def propCheck {τ : Type} (rel : τ → τ → Option Bool) (props1 : List (String × τ))
    (p2 : String × τ) : Option Bool :=
  match findProp? props1 p2.1 with
  | none => some false
  | some p1 => rel p1.2 p2.2

theorem propCheck_eq_true_iff {τ : Type} (rel : τ → τ → Option Bool)
    (props1 : List (String × τ)) (p2 : String × τ) :
    propCheck rel props1 p2 = some true ↔
      ∃ p1, findProp? props1 p2.1 = some p1 ∧ rel p1.2 p2.2 = some true := by
  cases hfind : findProp? props1 p2.1 with
  | none => simp [propCheck, hfind]
  | some p1 => simp [propCheck, hfind]

theorem findProp?_mem {τ : Type} {props : List (String × τ)} {name : String}
    {p : String × τ} (h : findProp? props name = some p) : p ∈ props :=
  List.mem_of_find?_eq_some h

theorem findProp?_name {τ : Type} {props : List (String × τ)} {name : String}
    {p : String × τ} (h : findProp? props name = some p) : p.1 = name := by
  simpa using List.find?_some h

/-- With no duplicate names, the lookup returns exactly the member carrying
that name. -/
theorem findProp?_of_nodup {τ : Type} {props : List (String × τ)} {p : String × τ}
    (hnd : (props.map Prod.fst).Nodup) (hp : p ∈ props) :
    findProp? props p.1 = some p := by
  induction props with
  | nil => simp at hp
  | cons q rest ih =>
    simp only [List.mem_cons] at hp
    simp only [List.map_cons, List.nodup_cons] at hnd
    rcases hp with rfl | hp
    · simp [findProp?, List.find?]
    · have hq : (q.1 == p.1) = false := by
        simp only [beq_eq_false_iff_ne, ne_eq]
        intro hcontra
        exact hnd.1 (hcontra ▸ List.mem_map_of_mem Prod.fst hp)
      simp only [findProp?, List.find?, hq]
      exact ih hnd.2 hp

/-- The `o.bind (b => if b then f else some false)` composition used to chain
a list check with a final check. -/
theorem bind_ite_eq_true_iff (o : Option Bool) (f : Option Bool) :
    (o.bind fun b => if b then f else some false) = some true ↔
      o = some true ∧ f = some true := by
  cases o with
  | none => simp
  | some b => cases b <;> simp

/-- Immutable type environments (`Record<string, Type>` with object spread):
a function from names, extended non-destructively. -/
abbrev TyEnv (τ : Type) := String → Option τ

def emptyEnv {τ : Type} : TyEnv τ := fun _ => none

/-- `{ ...env, [name]: ty }` -/
def extend {τ : Type} (env : TyEnv τ) (name : String) (ty : τ) : TyEnv τ :=
  fun n => if n = name then some ty else env n

/-- the `for (const { name, type } of params) newTyEnv[name] = type` loops -/
def extendAll {τ : Type} (env : TyEnv τ) : List (String × τ) → TyEnv τ
  | [] => env
  | p :: rest => extendAll (extend env p.1 p.2) rest

/-!
Result plumbing for the checkers: the outer `Option` is fuel exhaustion, the
inner `Except String` models `error(...)` aborting the whole check.
-/

def oret {α : Type} (a : α) : Option (Except String α) := some (.ok a)

def oerr {α : Type} (msg : String) : Option (Except String α) := some (.error msg)

def obind {α β : Type} : Option (Except String α) → (α → Option (Except String β)) →
    Option (Except String β)
  | none, _ => none
  | some (.error e), _ => some (.error e)
  | some (.ok a), f => f a

/-- Lift a fuel-indexed boolean check (such as `typeEq`) into the result stack. -/
def obool (o : Option Bool) : Option (Except String Bool) := o.map .ok

theorem obind_oret {α β : Type} (a : α) (f : α → Option (Except String β)) :
    obind (oret a) f = f a := rfl

theorem obind_oerr {α β : Type} (e : String) (f : α → Option (Except String β)) :
    obind (oerr e) f = oerr e := rfl

theorem obind_none {α β : Type} (f : α → Option (Except String β)) :
    obind none f = none := rfl

theorem obind_some_ok {α β : Type} (a : α) (f : α → Option (Except String β)) :
    obind (some (.ok a)) f = f a := rfl

theorem obind_some_error {α β : Type} (e : String) (f : α → Option (Except String β)) :
    obind (some (.error e)) f = some (.error e) := rfl

/-- The `for (let i = 0; ...)` argument loop of the `call` case: typecheck each
argument and compare it with the positional parameter type, reporting the
index and the two type tags on mismatch. -/
def checkArgs {α τ : Type} (tc : α → Option (Except String τ)) (eqf : τ → τ → Option Bool)
    (tagf : τ → String) : List α → List (String × τ) → Nat → Option (Except String Unit)
  | [], _, _ => oret ()
  | _ :: _, [], _ => oret ()
  | a :: args, p :: ps, i =>
    obind (tc a) fun argTy =>
    obind (obool (eqf argTy p.2)) fun b =>
    if b then checkArgs tc eqf tagf args ps (i+1)
    else oerr ("parameter type mismatch: [" ++ toString i ++ "]: expected " ++
      tagf p.2 ++ ", got " ++ tagf argTy)

/-- Short-circuiting disjunction of an `Option Bool` check over a list. -/
def optAny {α : Type} (f : α → Option Bool) : List α → Option Bool
  | [] => some false
  | a :: rest => (f a).bind fun b => if b then some true else optAny f rest

theorem optAny_true_mem {α : Type} {f : α → Option Bool} {l : List α}
    (h : optAny f l = some true) : ∃ a ∈ l, f a = some true := by
  induction l with
  | nil => simp [optAny] at h
  | cons a rest ih =>
    simp only [optAny] at h
    cases hfa : f a with
    | none => simp [hfa] at h
    | some b =>
      cases b with
      | true => exact ⟨a, by simp, hfa⟩
      | false =>
        simp only [hfa, Option.bind_some, if_neg Bool.false_ne_true] at h
        obtain ⟨a1, ha1, hfa1⟩ := ih h
        exact ⟨a1, by simp [ha1], hfa1⟩

/-- Short-circuiting conjunction with exception propagation (`Except` inside
`Option`), for the comparison loops that may throw. -/
def exAll {α : Type} (f : α → Option (Except String Bool)) :
    List α → Option (Except String Bool)
  | [] => oret true
  | a :: rest => obind (f a) fun b => if b then exAll f rest else oret false

theorem exAll_eq_true_iff {α : Type} (f : α → Option (Except String Bool)) (l : List α) :
    exAll f l = some (Except.ok true) ↔ ∀ a ∈ l, f a = some (Except.ok true) := by
  induction l with
  | nil => simp [exAll, oret]
  | cons a rest ih =>
    simp only [exAll]
    cases hfa : f a with
    | none => simp [hfa, obind, oret]
    | some r =>
      cases r with
      | error e => simp [hfa, obind, oret]
      | ok b =>
        cases b with
        | false => simp [hfa, obind, oret]
        | true => simp [hfa, obind, oret, ih]

/-- The `objectNew` loop: typecheck every prop term in declaration order. -/
def checkProps {α τ : Type} (tc : α → Option (Except String τ)) :
    List (String × α) → Option (Except String (List (String × τ)))
  | [] => oret []
  | p :: rest =>
    obind (tc p.2) fun ty =>
    obind (checkProps tc rest) fun tys =>
    oret ((p.1, ty) :: tys)

/-!
Decimal rendering of the fresh-name counter (`` `${tyVar}${freshTyVarId++}` ``)
never produces the empty suffix, so appending it always changes the name.
-/

theorem toDigitsCore_ne_nil (b : Nat) :
    ∀ (f n : Nat) (ds : List Char), ds ≠ [] → Nat.toDigitsCore b f n ds ≠ [] := by
  intro f
  induction f with
  | zero => intro n ds h; simpa [Nat.toDigitsCore] using h
  | succ f ih =>
    intro n ds h
    simp only [Nat.toDigitsCore]
    split
    · simp
    · exact ih _ _ (by simp)

theorem toDigits_ne_nil (b n : Nat) : Nat.toDigits b n ≠ [] := by
  simp only [Nat.toDigits, Nat.toDigitsCore]
  split
  · simp
  · exact toDigitsCore_ne_nil b _ _ _ (by simp)

theorem repr_ne_empty (n : Nat) : Nat.repr n ≠ "" := by
  simp only [Nat.repr]
  intro h
  have h2 : (Nat.toDigits 10 n).asString.data = String.data "" := congrArg String.data h
  simp only [List.asString] at h2
  exact toDigits_ne_nil 10 n (by simpa using h2)

theorem append_repr_ne (s : String) (n : Nat) : s ++ Nat.repr n ≠ s := by
  intro h
  have h2 : (s ++ Nat.repr n).data = s.data := congrArg String.data h
  rw [String.data_append] at h2
  have h3 : s.data.length + (Nat.repr n).data.length = s.data.length := by
    rw [← List.length_append, h2]
  have h4 : (Nat.repr n).data = [] := List.length_eq_zero.mp (by omega)
  exact repr_ne_empty n (by cases hr : Nat.repr n; simp_all)

namespace Sub

/-!
## The structural-subtyping variant (`sub.ts`)

`Type` from `sub.ts`: `Boolean`, `Number`, `Func` (named params and return
type), `Object` (named props).  A `Param`/`PropertyType` record is a
`String × Ty` pair.
-/

inductive Ty where
  | boolean
  | number
  | func (params : List (String × Ty)) (retType : Ty)
  | object (props : List (String × Ty))

/-- `subtype(ty1, ty2)` from `sub.ts`, fuel-indexed.  Dispatch is on `ty2`;
`Func` parameters are checked contravariantly (`subtype(ty2.params[i].type,
ty1.params[i].type)`), the return type covariantly; `Object` checks every
prop of `ty2` against the same-named prop of `ty1` found by name (prop
counts need not match: width subtyping). -/
def subtype : Nat → Ty → Ty → Option Bool
  | 0, _, _ => none
  | fuel+1, ty1, ty2 =>
    match ty2 with
    | .boolean => some (match ty1 with | .boolean => true | _ => false)
    | .number => some (match ty1 with | .number => true | _ => false)
    | .func params2 retType2 =>
      match ty1 with
      | .func params1 retType1 =>
        if params1.length = params2.length then
          (optAll (fun pq => subtype fuel pq.1.2 pq.2.2) (params2.zip params1)).bind
            fun b => if b then subtype fuel retType1 retType2 else some false
        else some false
      | _ => some false
    | .object props2 =>
      match ty1 with
      | .object props1 => optAll (propCheck (subtype fuel) props1) props2
      | _ => some false

/-- Well-formedness from the data model: object prop names are unique
(recursively). -/
inductive Wf : Ty → Prop where
  | boolean : Wf .boolean
  | number : Wf .number
  | func {params : List (String × Ty)} {retType : Ty} :
      (∀ p ∈ params, Wf p.2) → Wf retType → Wf (.func params retType)
  | object {props : List (String × Ty)} :
      (props.map Prod.fst).Nodup → (∀ p ∈ props, Wf p.2) → Wf (.object props)

theorem sizeOf_param_lt_funcS {p : String × Ty} {params : List (String × Ty)} (retType : Ty)
    (hp : p ∈ params) : sizeOf p.2 < sizeOf (Ty.func params retType) := by
  have h1 := List.sizeOf_lt_of_mem hp
  cases p with
  | mk n t => simp at h1 ⊢; omega

theorem sizeOf_ret_lt_funcS (params : List (String × Ty)) (retType : Ty) :
    sizeOf retType < sizeOf (Ty.func params retType) := by
  have h : sizeOf (Ty.func params retType) = 1 + sizeOf params + sizeOf retType := by simp
  omega

theorem sizeOf_prop_lt_objectS {p : String × Ty} {props : List (String × Ty)}
    (hp : p ∈ props) : sizeOf p.2 < sizeOf (Ty.object props) := by
  have h1 := List.sizeOf_lt_of_mem hp
  cases p with
  | mk n t => simp at h1 ⊢; omega

theorem subtype_func_true_iff (fuel : Nat) (params1 : List (String × Ty)) (retType1 : Ty)
    (params2 : List (String × Ty)) (retType2 : Ty) :
    subtype (fuel+1) (.func params1 retType1) (.func params2 retType2) = some true ↔
      params1.length = params2.length ∧
      (∀ pq ∈ params2.zip params1, subtype fuel pq.1.2 pq.2.2 = some true) ∧
      subtype fuel retType1 retType2 = some true := by
  simp only [subtype]
  by_cases hlen : params1.length = params2.length
  · rw [if_pos hlen, bind_ite_eq_true_iff, optAll_eq_true_iff]
    simp [hlen]
  · rw [if_neg hlen]
    simp [hlen]

theorem subtype_object_true_iff (fuel : Nat) (props1 props2 : List (String × Ty)) :
    subtype (fuel+1) (.object props1) (.object props2) = some true ↔
      ∀ p2 ∈ props2, ∃ p1, findProp? props1 p2.1 = some p1 ∧
        subtype fuel p1.2 p2.2 = some true := by
  simp only [subtype]
  rw [optAll_eq_true_iff]
  constructor
  · intro h p2 hp2
    exact (propCheck_eq_true_iff _ _ _).mp (h p2 hp2)
  · intro h p2 hp2
    exact (propCheck_eq_true_iff _ _ _).mpr (h p2 hp2)

/-- Counterexample for claim C3: the claim's concrete example is inverted.
With `G1 = (x: {a: Number, b: Boolean}) => Number` and
`G2 = (x: {a: Number}) => Number`, the code computes `subtype(G1, G2) = false`
(the claim asserts it holds) and `subtype(G2, G1) = true` (the claim asserts
it does not): by contravariance the function taking the narrower object is
the subtype. -/
theorem c3_counterexample :
    subtype 10 (.func [("x", .object [("a", .number), ("b", .boolean)])] .number)
               (.func [("x", .object [("a", .number)])] .number) = some false ∧
    subtype 10 (.func [("x", .object [("a", .number)])] .number)
               (.func [("x", .object [("a", .number), ("b", .boolean)])] .number) = some true :=
  ⟨rfl, rfl⟩

/-- Claim C3 (amended): function subtyping is contravariant in parameters and
covariant in the return type; parameter names are never compared.  For `Func`
types of equal arity, `subtype(F1, F2)` holds iff
`subtype(F2.params[i].type, F1.params[i].type)` holds for every index `i` and
`subtype(F1.retType, F2.retType)` holds.  With `G1 = (x: {a: Number,
b: Boolean}) => Number` and `G2 = (x: {a: Number}) => Number`,
`subtype(G2, G1)` holds and `subtype(G1, G2)` does not. -/
theorem c3_func_variance :
    (∀ (fuel : Nat) (params1 : List (String × Ty)) (retType1 : Ty)
        (params2 : List (String × Ty)) (retType2 : Ty),
      params1.length = params2.length →
      (subtype (fuel+1) (.func params1 retType1) (.func params2 retType2) = some true ↔
        (∀ i (h2 : i < params2.length) (h1 : i < params1.length),
          subtype fuel (params2.get ⟨i, h2⟩).2 (params1.get ⟨i, h1⟩).2 = some true) ∧
        subtype fuel retType1 retType2 = some true)) ∧
    subtype 10 (.func [("x", .object [("a", .number)])] .number)
               (.func [("x", .object [("a", .number), ("b", .boolean)])] .number) = some true ∧
    subtype 10 (.func [("x", .object [("a", .number), ("b", .boolean)])] .number)
               (.func [("x", .object [("a", .number)])] .number) = some false := by
  refine ⟨?_, by rfl, by rfl⟩
  intro fuel params1 retType1 params2 retType2 hlen
  rw [subtype_func_true_iff, forall_mem_zip_iff]
  constructor
  · rintro ⟨-, hpairs, hret⟩
    exact ⟨fun i h2 h1 => hpairs i h2 h1, hret⟩
  · rintro ⟨hpairs, hret⟩
    exact ⟨hlen, fun i h2 h1 => hpairs i h2 h1, hret⟩

/-- Witness for C3 at a concrete instance. -/
theorem c3_func_variance_witness :
    ([("x", Ty.number)] : List (String × Ty)).length = [("y", Ty.number)].length ∧
    (subtype 4 (.func [("x", Ty.number)] .boolean) (.func [("y", Ty.number)] .boolean) = some true ↔
      (∀ i (h2 : i < ([("y", Ty.number)] : List (String × Ty)).length)
          (h1 : i < ([("x", Ty.number)] : List (String × Ty)).length),
        subtype 3 (([("y", Ty.number)] : List (String × Ty)).get ⟨i, h2⟩).2
          (([("x", Ty.number)] : List (String × Ty)).get ⟨i, h1⟩).2 = some true) ∧
      subtype 3 Ty.boolean Ty.boolean = some true) :=
  ⟨by decide, c3_func_variance.1 3 [("x", Ty.number)] .boolean [("y", Ty.number)] .boolean (by decide)⟩

/-- Claim C4: object width and depth subtyping.  For `Object` types (with the
data-model invariant that `O1`'s prop names are unique), `subtype(O1, O2)`
holds iff every prop of `O2` has a same-named prop in `O1` whose type is
covariantly a subtype; `O1` may carry extra props.  Concretely
`{foo: Number, bar: Boolean} <: {foo: Number}` but not vice versa. -/
theorem c4_object_width :
    (∀ (fuel : Nat) (props1 props2 : List (String × Ty)),
      (props1.map Prod.fst).Nodup →
      (subtype (fuel+1) (.object props1) (.object props2) = some true ↔
        ∀ p2 ∈ props2, ∃ p1 ∈ props1, p1.1 = p2.1 ∧ subtype fuel p1.2 p2.2 = some true)) ∧
    subtype 10 (.object [("foo", .number), ("bar", .boolean)]) (.object [("foo", .number)]) = some true ∧
    subtype 10 (.object [("foo", .number)]) (.object [("foo", .number), ("bar", .boolean)]) = some false := by
  refine ⟨?_, by rfl, by rfl⟩
  intro fuel props1 props2 hnd
  rw [subtype_object_true_iff]
  constructor
  · intro h p2 hp2
    obtain ⟨p1, hfind, hsub⟩ := h p2 hp2
    exact ⟨p1, findProp?_mem hfind, findProp?_name hfind, hsub⟩
  · intro h p2 hp2
    obtain ⟨p1, hp1, hname, hsub⟩ := h p2 hp2
    refine ⟨p1, ?_, hsub⟩
    rw [← hname]
    exact findProp?_of_nodup hnd hp1

/-- Witness for C4 at a concrete instance. -/
theorem c4_object_width_witness :
    (([("a", Ty.number)] : List (String × Ty)).map Prod.fst).Nodup ∧
    (subtype 4 (.object [("a", Ty.number)]) (.object [("a", Ty.number)]) = some true ↔
      ∀ p2 ∈ ([("a", Ty.number)] : List (String × Ty)),
        ∃ p1 ∈ ([("a", Ty.number)] : List (String × Ty)),
          p1.1 = p2.1 ∧ subtype 3 p1.2 p2.2 = some true) :=
  ⟨by decide, c4_object_width.1 3 [("a", Ty.number)] [("a", Ty.number)] (by decide)⟩

theorem subtype_refl (fuel : Nat) :
    ∀ ty : Ty, Wf ty → sizeOf ty ≤ fuel → subtype fuel ty ty = some true := by
  induction fuel with
  | zero =>
    intro ty hwf hsize
    exfalso
    cases ty <;> simp at hsize
  | succ fuel ih =>
    intro ty hwf hsize
    cases hwf with
    | boolean => rfl
    | number => rfl
    | func hparams hret =>
      rename_i params retType
      rw [subtype_func_true_iff]
      refine ⟨rfl, ?_, ?_⟩
      · intro pq hpq
        obtain ⟨heq, hmem⟩ := mem_zip_self hpq
        rw [← heq]
        exact ih pq.1.2 (hparams pq.1 hmem)
          (by have := sizeOf_param_lt_funcS retType hmem; omega)
      · exact ih retType hret
          (by have := sizeOf_ret_lt_funcS params retType; omega)
    | object hnd hprops =>
      rename_i props
      rw [subtype_object_true_iff]
      intro p2 hp2
      refine ⟨p2, findProp?_of_nodup hnd hp2, ?_⟩
      exact ih p2.2 (hprops p2 hp2) (by have := sizeOf_prop_lt_objectS hp2; omega)

theorem subtype_trans (fuel : Nat) :
    ∀ a b c : Ty, subtype fuel a b = some true → subtype fuel b c = some true →
      subtype fuel a c = some true := by
  induction fuel with
  | zero => intro a b c hab; simp [subtype] at hab
  | succ fuel ih =>
    intro a b c hab hbc
    cases c with
    | boolean =>
      cases b <;> simp [subtype] at hbc
      cases a <;> simp [subtype] at hab ⊢
    | number =>
      cases b <;> simp [subtype] at hbc
      cases a <;> simp [subtype] at hab ⊢
    | func paramsC retC =>
      cases b with
      | func paramsB retB =>
        cases a with
        | func paramsA retA =>
          rw [subtype_func_true_iff] at hab hbc ⊢
          obtain ⟨hlenAB, hpairsAB, hretAB⟩ := hab
          obtain ⟨hlenBC, hpairsBC, hretBC⟩ := hbc
          refine ⟨hlenAB.trans hlenBC, ?_, ih _ _ _ hretAB hretBC⟩
          rw [forall_mem_zip_iff] at hpairsAB hpairsBC ⊢
          intro i hC hA
          have hB : i < paramsB.length := hlenBC ▸ hC
          exact ih _ _ _ (hpairsBC i hC hB) (hpairsAB i hB hA)
        | boolean => simp [subtype] at hab
        | number => simp [subtype] at hab
        | object propsA => simp [subtype] at hab
      | boolean => simp [subtype] at hbc
      | number => simp [subtype] at hbc
      | object propsB => simp [subtype] at hbc
    | object propsC =>
      cases b with
      | object propsB =>
        cases a with
        | object propsA =>
          rw [subtype_object_true_iff] at hab hbc ⊢
          intro pc hpc
          obtain ⟨pb, hfindB, hsubBC⟩ := hbc pc hpc
          have hpbmem : pb ∈ propsB := findProp?_mem hfindB
          have hpbname : pb.1 = pc.1 := findProp?_name hfindB
          obtain ⟨pa, hfindA, hsubAB⟩ := hab pb hpbmem
          refine ⟨pa, ?_, ih _ _ _ hsubAB hsubBC⟩
          rw [← hpbname]
          exact hfindA
        | boolean => simp [subtype] at hab
        | number => simp [subtype] at hab
        | func paramsA retA => simp [subtype] at hab
      | boolean => simp [subtype] at hbc
      | number => simp [subtype] at hbc
      | func paramsB retB => simp [subtype] at hbc

/-- Claim C5: for the subtyping variant, `subtype` is a preorder: reflexive on
every (well-formed) type given enough fuel for its size, and transitive. -/
theorem c5_subtype_preorder :
    (∀ (fuel : Nat) (ty : Ty), Wf ty → sizeOf ty ≤ fuel → subtype fuel ty ty = some true) ∧
    (∀ (fuel : Nat) (a b c : Ty), subtype fuel a b = some true →
      subtype fuel b c = some true → subtype fuel a c = some true) :=
  ⟨fun fuel ty => subtype_refl fuel ty, fun fuel a b c => subtype_trans fuel a b c⟩

/-- Witness for C5 at concrete instances. -/
theorem c5_subtype_preorder_witness :
    (Wf (Ty.object [("foo", .number)]) ∧ sizeOf (Ty.object [("foo", .number)]) ≤ 100000 ∧
      subtype 100000 (.object [("foo", .number)]) (.object [("foo", .number)]) = some true) ∧
    (subtype 10 (.object [("foo", .number), ("bar", .boolean)]) (.object [("foo", .number)]) = some true ∧
      subtype 10 (.object [("foo", .number)]) (.object []) = some true ∧
      subtype 10 (.object [("foo", .number), ("bar", .boolean)]) (.object []) = some true) :=
  ⟨⟨Wf.object (by decide) (by rintro p hp; simp only [List.mem_singleton] at hp; subst hp; exact Wf.number),
    by decide,
    c5_subtype_preorder.1 100000 _
      (Wf.object (by decide) (by rintro p hp; simp only [List.mem_singleton] at hp; subst hp; exact Wf.number))
      (by decide)⟩,
   by rfl, by rfl,
   c5_subtype_preorder.2 10 (.object [("foo", .number), ("bar", .boolean)])
     (.object [("foo", .number)]) (.object []) (by rfl) (by rfl)⟩

end Sub

namespace RecFunc

/-!
## The recursive-function variant (`recfunc.ts`)

`Type` from `recfunc.ts`: `Boolean`, `Number`, `Func`, `Object`; terms add
`recFunc(funcName, params, retType, body, rest)` with a mandatory declared
return type.
-/

inductive Ty where
  | boolean
  | number
  | func (params : List (String × Ty)) (retType : Ty)
  | object (props : List (String × Ty))

/-- `ty.tag`, used in diagnostics. -/
def tagOf : Ty → String
  | .boolean => "Boolean"
  | .number => "Number"
  | .func _ _ => "Func"
  | .object _ => "Object"

/-- `typeEq(ty1, ty2)` from `recfunc.ts`, fuel-indexed.  Dispatch is on `ty2`;
`Func` compares parameter types pointwise (names ignored) and return types;
`Object` additionally requires equal prop counts. -/
def typeEq : Nat → Ty → Ty → Option Bool
  | 0, _, _ => none
  | fuel+1, ty1, ty2 =>
    match ty2 with
    | .boolean => some (match ty1 with | .boolean => true | _ => false)
    | .number => some (match ty1 with | .number => true | _ => false)
    | .func params2 retType2 =>
      match ty1 with
      | .func params1 retType1 =>
        if params1.length = params2.length then
          (optAll (fun pq => typeEq fuel pq.1.2 pq.2.2) (params1.zip params2)).bind
            fun b => if b then typeEq fuel retType1 retType2 else some false
        else some false
      | _ => some false
    | .object props2 =>
      match ty1 with
      | .object props1 =>
        if props1.length = props2.length then optAll (propCheck (typeEq fuel) props1) props2
        else some false
      | _ => some false

/-- `Term` from `recfunc.ts`; the numeric payload of a literal is never
inspected by the checker. -/
inductive Term where
  | true_
  | false_
  | if_ (cond thn els : Term)
  | number (n : Nat)
  | add (left right : Term)
  | var (name : String)
  | func (params : List (String × Ty)) (body : Term) (retType : Option Ty)
  | call (fn : Term) (args : List Term)
  | seq (body rest : Term)
  | constT (name : String) (init rest : Term)
  | objectNew (props : List (String × Term))
  | objectGet (obj : Term) (propName : String)
  | recFunc (funcName : String) (params : List (String × Ty)) (retType : Ty)
      (body rest : Term)

/-- `typecheck(t, tyEnv)` from `recfunc.ts`, fuel-indexed. -/
def typecheck : Nat → Term → TyEnv Ty → Option (Except String Ty)
  | 0, _, _ => none
  | fuel+1, t, tyEnv =>
    match t with
    | .true_ => oret .boolean
    | .false_ => oret .boolean
    | .if_ cond thn els =>
      obind (typecheck fuel cond tyEnv) fun condTy =>
      match condTy with
      | .boolean =>
        obind (typecheck fuel thn tyEnv) fun thnTy =>
        obind (typecheck fuel els tyEnv) fun elsTy =>
        obind (obool (typeEq fuel thnTy elsTy)) fun b =>
        if b then oret thnTy else oerr "then and else have different types"
      | _ => oerr "boolean expected"
    | .number _ => oret .number
    | .add left right =>
      obind (typecheck fuel left tyEnv) fun leftTy =>
      match leftTy with
      | .number =>
        obind (typecheck fuel right tyEnv) fun rightTy =>
        match rightTy with
        | .number => oret .number
        | _ => oerr "number expected"
      | _ => oerr "number expected"
    | .var name =>
      match tyEnv name with
      | none => oerr ("unknown variable: " ++ name)
      | some ty => oret ty
    | .func params body retType =>
      obind (typecheck fuel body (extendAll tyEnv params)) fun bodyTy =>
      match retType with
      | some declared =>
        obind (obool (typeEq fuel declared bodyTy)) fun b =>
        if b then oret (.func params bodyTy) else oerr "wrong return type"
      | none => oret (.func params bodyTy)
    | .call fn args =>
      obind (typecheck fuel fn tyEnv) fun funcTy =>
      match funcTy with
      | .func params retType =>
        if args.length = params.length then
          obind (checkArgs (fun a => typecheck fuel a tyEnv) (typeEq fuel) tagOf args params 0)
            fun _ => oret retType
        else oerr "wrong number of arguments"
      | _ => oerr "function expected"
    | .seq body rest =>
      obind (typecheck fuel body tyEnv) fun _ => typecheck fuel rest tyEnv
    | .constT name init rest =>
      obind (typecheck fuel init tyEnv) fun ty =>
      typecheck fuel rest (extend tyEnv name ty)
    | .objectNew props =>
      obind (checkProps (fun a => typecheck fuel a tyEnv) props) fun propTys =>
      oret (.object propTys)
    | .objectGet obj propName =>
      obind (typecheck fuel obj tyEnv) fun objectTy =>
      match objectTy with
      | .object props =>
        match findProp? props propName with
        | none => oerr ("unknown property: " ++ propName)
        | some p => oret p.2
      | _ => oerr "object expected"
    | .recFunc funcName params retType body rest =>
      obind (typecheck fuel body (extendAll (extend tyEnv funcName (.func params retType)) params))
        fun bodyTy =>
      obind (obool (typeEq fuel retType bodyTy)) fun b =>
      if b then
        typecheck fuel rest
          (extend (extendAll (extend tyEnv funcName (.func params retType)) params)
            funcName (.func params retType))
      else oerr "wrong return type"

/-- Well-formedness from the data model: object prop names are unique
(recursively). -/
inductive Wf : Ty → Prop where
  | boolean : Wf .boolean
  | number : Wf .number
  | func {params : List (String × Ty)} {retType : Ty} :
      (∀ p ∈ params, Wf p.2) → Wf retType → Wf (.func params retType)
  | object {props : List (String × Ty)} :
      (props.map Prod.fst).Nodup → (∀ p ∈ props, Wf p.2) → Wf (.object props)

theorem sizeOf_param_lt_funcR {p : String × Ty} {params : List (String × Ty)} (retType : Ty)
    (hp : p ∈ params) : sizeOf p.2 < sizeOf (Ty.func params retType) := by
  have h1 := List.sizeOf_lt_of_mem hp
  cases p with
  | mk n t => simp at h1 ⊢; omega

theorem sizeOf_ret_lt_funcR (params : List (String × Ty)) (retType : Ty) :
    sizeOf retType < sizeOf (Ty.func params retType) := by
  have h : sizeOf (Ty.func params retType) = 1 + sizeOf params + sizeOf retType := by simp
  omega

theorem sizeOf_prop_lt_objectR {p : String × Ty} {props : List (String × Ty)}
    (hp : p ∈ props) : sizeOf p.2 < sizeOf (Ty.object props) := by
  have h1 := List.sizeOf_lt_of_mem hp
  cases p with
  | mk n t => simp at h1 ⊢; omega

theorem typeEq_func_true_iff (fuel : Nat) (params1 : List (String × Ty)) (retType1 : Ty)
    (params2 : List (String × Ty)) (retType2 : Ty) :
    typeEq (fuel+1) (.func params1 retType1) (.func params2 retType2) = some true ↔
      params1.length = params2.length ∧
      (∀ pq ∈ params1.zip params2, typeEq fuel pq.1.2 pq.2.2 = some true) ∧
      typeEq fuel retType1 retType2 = some true := by
  simp only [typeEq]
  by_cases hlen : params1.length = params2.length
  · rw [if_pos hlen, bind_ite_eq_true_iff, optAll_eq_true_iff]
    simp [hlen]
  · rw [if_neg hlen]
    simp [hlen]

theorem typeEq_object_true_iff (fuel : Nat) (props1 props2 : List (String × Ty)) :
    typeEq (fuel+1) (.object props1) (.object props2) = some true ↔
      props1.length = props2.length ∧
      ∀ p2 ∈ props2, ∃ p1, findProp? props1 p2.1 = some p1 ∧
        typeEq fuel p1.2 p2.2 = some true := by
  simp only [typeEq]
  by_cases hlen : props1.length = props2.length
  · rw [if_pos hlen, optAll_eq_true_iff]
    simp only [hlen, true_and]
    constructor
    · intro h p2 hp2
      exact (propCheck_eq_true_iff _ _ _).mp (h p2 hp2)
    · intro h p2 hp2
      exact (propCheck_eq_true_iff _ _ _).mpr (h p2 hp2)
  · rw [if_neg hlen]
    simp [hlen]

/-- Reflexivity of `typeEq` in the `recfunc.ts` variant: on types whose object
prop names are unique, `typeEq(T, T)` returns `true` whenever the fuel covers
the size of `T` (the function is structurally recursive, so such fuel always
exists: the comparison terminates). -/
theorem typeEq_refl (fuel : Nat) :
    ∀ ty : Ty, Wf ty → sizeOf ty ≤ fuel → typeEq fuel ty ty = some true := by
  induction fuel with
  | zero =>
    intro ty hwf hsize
    exfalso
    cases ty <;> simp at hsize
  | succ fuel ih =>
    intro ty hwf hsize
    cases hwf with
    | boolean => rfl
    | number => rfl
    | func hparams hret =>
      rename_i params retType
      rw [typeEq_func_true_iff]
      refine ⟨rfl, ?_, ?_⟩
      · intro pq hpq
        obtain ⟨heq, hmem⟩ := mem_zip_self hpq
        rw [← heq]
        exact ih pq.1.2 (hparams pq.1 hmem)
          (by have := sizeOf_param_lt_funcR retType hmem; omega)
      · exact ih retType hret
          (by have := sizeOf_ret_lt_funcR params retType; omega)
    | object hnd hprops =>
      rename_i props
      rw [typeEq_object_true_iff]
      refine ⟨rfl, ?_⟩
      intro p2 hp2
      refine ⟨p2, findProp?_of_nodup hnd hp2, ?_⟩
      exact ih p2.2 (hprops p2 hp2) (by have := sizeOf_prop_lt_objectR hp2; omega)

/-- Counterexample for claim C6: in the `recFunc` case the parameter bindings
introduced for checking the body stay visible while checking `rest` — the
code builds `rest`'s environment from `newTyEnv` (which contains the
parameters), not from the original environment.  For
`recFunc("f", [x: Number], Number, body = x, rest = x)` the checker returns
`Number` for the whole term, yet under the claimed environment (original
environment extended only with `f`) the same `rest` fails with an
unknown-variable diagnostic. -/
theorem c6_counterexample :
    typecheck 10 (.recFunc "f" [("x", .number)] .number (.var "x") (.var "x")) emptyEnv =
      some (.ok .number) ∧
    typecheck 10 (.var "x") (extend emptyEnv "f" (.func [("x", .number)] .number)) =
      some (.error "unknown variable: x") :=
  ⟨rfl, rfl⟩

/-- Claim C6 (amended): for a `RecFunc(funcName, params, declaredReturn, body,
rest)` term whose body checks against the declared return type, the result is
the type synthesized for `rest` under the body-checking environment (original
environment extended with `funcName` and with all parameter bindings, which
remain visible) with `funcName` re-bound to `Func(params, declaredReturn)`.
Concretely, the function is visible to `rest` by name. -/
theorem c6_recfunc_rest_env :
    (∀ (fuel : Nat) (funcName : String) (params : List (String × Ty)) (retType : Ty)
        (body rest : Term) (tyEnv : TyEnv Ty) (bodyTy : Ty),
      typecheck fuel body (extendAll (extend tyEnv funcName (.func params retType)) params) =
        some (.ok bodyTy) →
      typeEq fuel retType bodyTy = some true →
      typecheck (fuel+1) (.recFunc funcName params retType body rest) tyEnv =
        typecheck fuel rest
          (extend (extendAll (extend tyEnv funcName (.func params retType)) params)
            funcName (.func params retType))) ∧
    typecheck 10 (.recFunc "f" [("x", .number)] .number (.var "x") (.var "f")) emptyEnv =
      some (.ok (.func [("x", .number)] .number)) := by
  refine ⟨?_, by rfl⟩
  intro fuel funcName params retType body rest tyEnv bodyTy hbody heq
  simp only [typecheck, hbody, obind, heq, obool, Option.map_some]
  rfl

/-- Witness for C6 (amended) at a concrete instance. -/
theorem c6_recfunc_rest_env_witness :
    (typecheck 9 (.number 1)
        (extendAll (extend emptyEnv "g" (.func [] .number)) []) = some (.ok .number)) ∧
    (typeEq 9 .number .number = some true) ∧
    typecheck 10 (.recFunc "g" [] .number (.number 1) (.var "g")) emptyEnv =
      typecheck 9 (.var "g")
        (extend (extendAll (extend emptyEnv "g" (.func [] .number)) [])
          "g" (.func [] .number)) :=
  ⟨by rfl, by rfl,
   c6_recfunc_rest_env.1 9 "g" [] .number (.number 1) (.var "g") emptyEnv .number
     (by rfl) (by rfl)⟩

end RecFunc

namespace Poly

/-!
## The parametric-polymorphism variant (`poly.ts`)

`Type` adds `TypeAbs` (universal quantification) and `TypeVar`.  `subst` is
capture-"avoiding" via `fresthTypeAbs`, which renames every bound name of a
traversed binder to `` `${tyVar}${freshTyVarId++}` `` using the module-global
monotonically increasing counter `freshTyVarId`; the counter is threaded
through every function that may call `subst` as an explicit `Nat` state.
-/

inductive Ty where
  | boolean
  | number
  | func (params : List (String × Ty)) (retType : Ty)
  | typeAbs (typeParams : List String) (body : Ty)
  | typeVar (name : String)

/-- `ty.tag`, used in diagnostics. -/
def tagOf : Ty → String
  | .boolean => "Boolean"
  | .number => "Number"
  | .func _ _ => "Func"
  | .typeAbs _ _ => "TypeAbs"
  | .typeVar _ => "TypeVar"

/-- The `ty.params.map(...)` step of `subst`'s `Func` case, threading the
fresh-name counter left to right. -/
def substParams (substK : Ty → String → Ty → Nat → Option (Ty × Nat))
    (tyVarName : String) (repTy : Ty) :
    List (String × Ty) → Nat → Option (List (String × Ty) × Nat)
  | [], c => some ([], c)
  | p :: rest, c =>
    (substK p.2 tyVarName repTy c).bind fun q =>
    (substParams substK tyVarName repTy rest q.2).map fun r => ((p.1, q.1) :: r.1, r.2)

/-- `fresthTypeAbs(typeParams, ty)` from `poly.ts`: rename each bound name
`tyVar` to `` `${tyVar}${freshTyVarId++}` `` inside `ty`, in order, threading
the counter; the renaming itself goes through `subst` (passed in as
`substK`). -/
def fresthTypeAbs (substK : Ty → String → Ty → Nat → Option (Ty × Nat)) :
    List String → Ty → Nat → Option (List String × Ty × Nat)
  | [], ty, c => some ([], ty, c)
  | tyVar :: rest, ty, c =>
    (substK ty tyVar (.typeVar (tyVar ++ Nat.repr c)) (c+1)).bind fun q =>
    (fresthTypeAbs substK rest q.1 q.2).map fun r =>
      ((tyVar ++ Nat.repr c) :: r.1, r.2.1, r.2.2)

/-- `subst(ty, tyVarName, repTy)` from `poly.ts`, fuel-indexed and threading
the global fresh-name counter: rewrite `TypeVar(tyVarName)` to `repTy`,
recursing through `Func`; a `TypeAbs` whose parameters contain `tyVarName` is
returned unchanged, any other `TypeAbs` is first alpha-renamed with
`fresthTypeAbs` and then recursed into. -/
def subst : Nat → Ty → String → Ty → Nat → Option (Ty × Nat)
  | 0, _, _, _, _ => none
  | fuel+1, ty, tyVarName, repTy, c =>
    match ty with
    | .boolean => some (.boolean, c)
    | .number => some (.number, c)
    | .func params retType =>
      (substParams (subst fuel) tyVarName repTy params c).bind fun pr =>
      (subst fuel retType tyVarName repTy pr.2).map fun q => (.func pr.1 q.1, q.2)
    | .typeAbs typeParams body =>
      if tyVarName ∈ typeParams then some (.typeAbs typeParams body, c)
      else
        (fresthTypeAbs (subst fuel) typeParams body c).bind fun fr =>
        (subst fuel fr.2.1 tyVarName repTy fr.2.2).map fun q => (.typeAbs fr.1 q.1, q.2)
    | .typeVar name => some (if name = tyVarName then repTy else .typeVar name, c)

/-- Whether `TypeVar(v)` occurs free in a type (the notion of free occurrence
used by the specification: stopped by a binder that binds `v`). -/
def occursFree : Nat → String → Ty → Option Bool
  | 0, _, _ => none
  | fuel+1, v, ty =>
    match ty with
    | .boolean => some false
    | .number => some false
    | .func params retType =>
      (optAny (fun p => occursFree fuel v p.2) params).bind fun b =>
      if b then some true else occursFree fuel v retType
    | .typeAbs typeParams body =>
      if v ∈ typeParams then some false else occursFree fuel v body
    | .typeVar name => some (name = v)

/-- Counterexample for claim C1: the generated "fresh" names are only fresh
among counter-generated names, not globally, so substitution can capture.
Substituting `TypeVar("T")` by `TypeVar("U1")` inside
`TypeAbs(["U"], TypeVar("T"))` when the counter stands at `1` renames the
binder `"U"` to `"U1"` — the very name free in the replacement — and returns
`TypeAbs(["U1"], TypeVar("U1"))`: the replacement's free variable is captured
by the binder, exactly the outcome the claim says never happens. -/
theorem c1_counterexample :
    subst 10 (.typeAbs ["U"] (.typeVar "T")) "T" (.typeVar "U1") 1 =
      some (.typeAbs ["U1"] (.typeVar "U1"), 2) :=
  rfl

theorem substParams_mem {substK : Ty → String → Ty → Nat → Option (Ty × Nat)}
    {tyVarName : String} {repTy : Ty} :
    ∀ {params : List (String × Ty)} {c : Nat} {pr : List (String × Ty) × Nat},
      substParams substK tyVarName repTy params c = some pr →
      ∀ q ∈ pr.1, ∃ p ∈ params, ∃ c1 q2,
        substK p.2 tyVarName repTy c1 = some (q.2, q2) ∧ q.1 = p.1 := by
  intro params
  induction params with
  | nil =>
    intro c pr h q hq
    simp only [substParams, Option.some.injEq] at h
    rw [← h] at hq
    simp at hq
  | cons p rest ih =>
    intro c pr h q hq
    simp only [substParams] at h
    cases hs : substK p.2 tyVarName repTy c with
    | none => rw [hs] at h; simp at h
    | some q0 =>
      rw [hs] at h
      simp only [Option.some_bind] at h
      cases hrest : substParams substK tyVarName repTy rest q0.2 with
      | none => rw [hrest] at h; simp at h
      | some r =>
        rw [hrest] at h
        simp only [Option.map_some', Option.some.injEq] at h
        rw [← h] at hq
        simp only [List.mem_cons] at hq
        rcases hq with rfl | hq
        · exact ⟨p, by simp, c, q0.2, by simpa using hs, rfl⟩
        · obtain ⟨p1, hp1, c1, q2, hsub, hname⟩ := ih hrest q hq
          exact ⟨p1, by simp [hp1], c1, q2, hsub, hname⟩

theorem optAny_bind_ne_true {α : Type} {f : α → Option Bool} {l : List α}
    {g : Option Bool} (hf : ∀ a ∈ l, f a ≠ some true) (hg : g ≠ some true) :
    ((optAny f l).bind fun b => if b then some true else g) ≠ some true := by
  cases hany : optAny f l with
  | none => simp
  | some b =>
    cases b with
    | true =>
      obtain ⟨a, ha, hfa⟩ := optAny_true_mem hany
      exact absurd hfa (hf a ha)
    | false => simpa using hg

/-- After `subst ty v rep`, the variable `v` no longer occurs free, provided
it does not occur free in the replacement (the "rewrites every free
occurrence" half of the claim). -/
theorem subst_removes_var (fuel : Nat) :
    ∀ (ty : Ty) (v : String) (repTy : Ty) (c : Nat) (r : Ty × Nat),
      subst fuel ty v repTy c = some r →
      (∀ j, occursFree j v repTy ≠ some true) →
      ∀ j, occursFree j v r.1 ≠ some true := by
  induction fuel with
  | zero => intro ty v repTy c r h; simp [subst] at h
  | succ fuel ih =>
    intro ty v repTy c r h hrep j
    cases ty with
    | boolean =>
      simp only [subst, Option.some.injEq] at h
      rw [← h]
      cases j <;> simp [occursFree]
    | number =>
      simp only [subst, Option.some.injEq] at h
      rw [← h]
      cases j <;> simp [occursFree]
    | typeVar name =>
      simp only [subst, Option.some.injEq] at h
      rw [← h]
      by_cases hn : name = v
      · simpa [hn] using hrep j
      · cases j <;> simp [occursFree, hn]
    | func params retType =>
      simp only [subst] at h
      cases hps : substParams (subst fuel) v repTy params c with
      | none => rw [hps] at h; simp at h
      | some pr =>
        rw [hps] at h
        simp only [Option.some_bind] at h
        cases hret : subst fuel retType v repTy pr.2 with
        | none => rw [hret] at h; simp at h
        | some q =>
          rw [hret] at h
          simp only [Option.map_some', Option.some.injEq] at h
          rw [← h]
          cases j with
          | zero => simp [occursFree]
          | succ j =>
            simp only [occursFree]
            refine optAny_bind_ne_true ?_ ?_
            · intro p hp
              obtain ⟨p0, hp0, c1, q2, hsub, hname⟩ := substParams_mem hps p hp
              exact ih p0.2 v repTy c1 (p.2, q2) hsub hrep j
            · exact ih retType v repTy pr.2 q hret hrep j
    | typeAbs typeParams body =>
      simp only [subst] at h
      by_cases hin : v ∈ typeParams
      · rw [if_pos hin] at h
        simp only [Option.some.injEq] at h
        rw [← h]
        cases j with
        | zero => simp [occursFree]
        | succ j => simp [occursFree, hin]
      · rw [if_neg hin] at h
        cases hfr : fresthTypeAbs (subst fuel) typeParams body c with
        | none => rw [hfr] at h; simp at h
        | some fr =>
          rw [hfr] at h
          simp only [Option.some_bind] at h
          cases hsub : subst fuel fr.2.1 v repTy fr.2.2 with
          | none => rw [hsub] at h; simp at h
          | some q =>
            rw [hsub] at h
            simp only [Option.map_some', Option.some.injEq] at h
            rw [← h]
            cases j with
            | zero => simp [occursFree]
            | succ j =>
              simp only [occursFree]
              by_cases hin2 : v ∈ fr.1
              · simp [hin2]
              · rw [if_neg hin2]
                exact ih fr.2.1 v repTy fr.2.2 q hsub hrep j

/-- Claim C1 (amended): `subst` rewrites every free occurrence of
`TypeVar(varName)` to the replacement (a `TypeVar` leaf matching `varName`
becomes the replacement, any other leaf is kept, and after substitution
`varName` no longer occurs free provided it is not free in the replacement);
a `TypeAbs` whose parameter list contains `varName` is returned unchanged;
any other `TypeAbs` has its bound names renamed by `fresthTypeAbs` to
counter-generated names `name ++ counter` — fresh among generated names but
not globally, so capture is avoided only when those names do not collide with
`varName` or the replacement's free variables.  In particular, substituting
`TypeVar("T")` by `TypeVar("U")` inside `TypeAbs(["U"], TypeVar("T"))` with
counter value `c` yields `TypeAbs(["U" ++ c], TypeVar("U"))` — never
`TypeAbs(["U"], TypeVar("U"))`, since the suffixed name differs from `"U"`. -/
theorem c1_subst_capture :
    (∀ (fuel : Nat) (v : String) (repTy : Ty) (c : Nat),
      subst (fuel+1) (.typeVar v) v repTy c = some (repTy, c)) ∧
    (∀ (fuel : Nat) (v name : String) (repTy : Ty) (c : Nat), name ≠ v →
      subst (fuel+1) (.typeVar name) v repTy c = some (.typeVar name, c)) ∧
    (∀ (fuel : Nat) (v : String) (repTy : Ty) (c : Nat) (typeParams : List String) (body : Ty),
      v ∈ typeParams →
      subst (fuel+1) (.typeAbs typeParams body) v repTy c = some (.typeAbs typeParams body, c)) ∧
    (∀ (fuel : Nat) (v : String) (repTy : Ty) (c : Nat) (typeParams : List String) (body : Ty),
      v ∉ typeParams →
      subst (fuel+1) (.typeAbs typeParams body) v repTy c =
        (fresthTypeAbs (subst fuel) typeParams body c).bind fun fr =>
        (subst fuel fr.2.1 v repTy fr.2.2).map fun q => (.typeAbs fr.1 q.1, q.2)) ∧
    (∀ (fuel : Nat) (ty : Ty) (v : String) (repTy : Ty) (c : Nat) (r : Ty × Nat),
      subst fuel ty v repTy c = some r →
      (∀ j, occursFree j v repTy ≠ some true) →
      ∀ j, occursFree j v r.1 ≠ some true) ∧
    (∀ c : Nat,
      subst 3 (.typeAbs ["U"] (.typeVar "T")) "T" (.typeVar "U") c =
        some (.typeAbs ["U" ++ Nat.repr c] (.typeVar "U"), c + 1) ∧
      "U" ++ Nat.repr c ≠ "U") := by
  refine ⟨fun fuel v repTy c => by simp [subst],
    fun fuel v name repTy c hne => by simp [subst, hne],
    fun fuel v repTy c typeParams body hin => by simp [subst, hin],
    fun fuel v repTy c typeParams body hin => by simp [subst, hin],
    fun fuel => subst_removes_var fuel,
    fun c => ⟨?_, append_repr_ne "U" c⟩⟩
  show subst 3 (.typeAbs ["U"] (.typeVar "T")) "T" (.typeVar "U") c =
    some (.typeAbs ["U" ++ Nat.repr c] (.typeVar "U"), c + 1)
  simp [subst, fresthTypeAbs]

/-- Witness for C1 (amended) at concrete inputs. -/
theorem c1_subst_capture_witness :
    (("x" : String) ≠ "T" ∧
      subst 3 (.typeVar "x") "T" .number 7 = some (.typeVar "x", 7)) ∧
    (("T" : String) ∈ (["T"] : List String) ∧
      subst 3 (.typeAbs ["T"] (.typeVar "T")) "T" .number 7 =
        some (.typeAbs ["T"] (.typeVar "T"), 7)) ∧
    (("T" : String) ∉ (["U"] : List String) ∧
      subst 3 (.typeAbs ["U"] (.typeVar "x")) "T" .number 7 =
        (fresthTypeAbs (subst 2) ["U"] (.typeVar "x") 7).bind fun fr =>
        (subst 2 fr.2.1 "T" .number fr.2.2).map fun q => (.typeAbs fr.1 q.1, q.2)) ∧
    (subst 5 (.func [("a", .typeVar "T")] (.typeVar "T")) "T" .boolean 3 =
        some (.func [("a", .boolean)] .boolean, 3) ∧
      (∀ j, occursFree j "T" Ty.boolean ≠ some true) ∧
      ∀ j, occursFree j "T" (Ty.func [("a", .boolean)] .boolean) ≠ some true) :=
  ⟨⟨by decide, c1_subst_capture.2.1 2 "T" "x" .number 7 (by decide)⟩,
   ⟨by decide, c1_subst_capture.2.2.1 2 "T" .number 7 ["T"] (.typeVar "T") (by decide)⟩,
   ⟨by decide, c1_subst_capture.2.2.2.1 2 "T" .number 7 ["U"] (.typeVar "x") (by decide)⟩,
   ⟨by rfl,
    fun j => by cases j <;> simp [occursFree],
    c1_subst_capture.2.2.2.2.1 5 (.func [("a", .typeVar "T")] (.typeVar "T")) "T" .boolean 3
      (.func [("a", .boolean)] .boolean, 3) (by rfl)
      (fun j => by cases j <;> simp [occursFree])⟩⟩

/-- `typeEqSub(ty1, ty2, map)` from `poly.ts`, fuel-indexed.  The
correspondence map (a `Record<string, string>`) is a function from names;
a `TypeVar` on the left with no entry throws
`unknown type variable: ...`. -/
def typeEqSub : Nat → Ty → Ty → TyEnv String → Option (Except String Bool)
  | 0, _, _, _ => none
  | fuel+1, ty1, ty2, map =>
    match ty2 with
    | .boolean => some (.ok (match ty1 with | .boolean => true | _ => false))
    | .number => some (.ok (match ty1 with | .number => true | _ => false))
    | .func params2 retType2 =>
      match ty1 with
      | .func params1 retType1 =>
        if params1.length = params2.length then
          obind (exAll (fun pq => typeEqSub fuel pq.1.2 pq.2.2 map) (params1.zip params2))
            fun b => if b then typeEqSub fuel retType1 retType2 map else oret false
        else oret false
      | _ => oret false
    | .typeAbs typeParams2 body2 =>
      match ty1 with
      | .typeAbs typeParams1 body1 =>
        if typeParams1.length = typeParams2.length then
          typeEqSub fuel body1 body2 (extendAll map (typeParams1.zip typeParams2))
        else oret false
      | _ => oret false
    | .typeVar name2 =>
      match ty1 with
      | .typeVar name1 =>
        match map name1 with
        | none => oerr ("unknown type variable: " ++ name1)
        | some mapped => some (.ok (mapped = name2))
      | _ => oret false

/-- `typeEq(ty1, ty2, tyVars)` from `poly.ts`: seed the correspondence map
with the identity on the in-scope bound type variables. -/
def typeEq (fuel : Nat) (ty1 ty2 : Ty) (tyVars : List String) :
    Option (Except String Bool) :=
  typeEqSub fuel ty1 ty2 (extendAll emptyEnv (tyVars.map fun v => (v, v)))

/-- `Term` from `poly.ts`. -/
inductive Term where
  | true_
  | false_
  | if_ (cond thn els : Term)
  | number (n : Nat)
  | add (left right : Term)
  | var (name : String)
  | func (params : List (String × Ty)) (body : Term)
  | call (fn : Term) (args : List Term)
  | seq (body rest : Term)
  | constT (name : String) (init rest : Term)
  | typeAbs (typeParams : List String) (body : Term)
  | typeApp (typeAbsTerm : Term) (typeArgs : List Ty)

/-- The argument loop of the `call` case, threading the fresh-name counter:
`tc` typechecks an argument from a counter value, `eqc` is the comparison
(which may throw). -/
def checkArgsP (tc : Term → Nat → Option (Except String (Ty × Nat)))
    (eqc : Ty → Ty → Option (Except String Bool)) :
    List Term → List (String × Ty) → Nat → Nat → Option (Except String Nat)
  | [], _, _, c => oret c
  | _ :: _, [], _, c => oret c
  | a :: args, p :: ps, i, c =>
    obind (tc a c) fun q =>
    obind (eqc q.1 p.2) fun b =>
    if b then checkArgsP tc eqc args ps (i+1) q.2
    else oerr ("parameter type mismatch: [" ++ toString i ++ "]: expected " ++
      tagOf p.2 ++ ", got " ++ tagOf q.1)

/-- The `typeApp` result: fold `subst` once per `(typeParams[i], typeArgs[i])`
pair in order, threading the counter. -/
def instantiate (substK : Ty → String → Ty → Nat → Option (Ty × Nat)) :
    List (String × Ty) → Ty → Nat → Option (Ty × Nat)
  | [], ty, c => some (ty, c)
  | p :: rest, ty, c =>
    (substK ty p.1 p.2 c).bind fun q => instantiate substK rest q.1 q.2

/-- `typecheck(t, tyEnv, tyVars)` from `poly.ts`, fuel-indexed, threading the
global fresh-name counter as an explicit `Nat` state (in and out). -/
def typecheck : Nat → Term → TyEnv Ty → List String → Nat → Option (Except String (Ty × Nat))
  | 0, _, _, _, _ => none
  | fuel+1, t, tyEnv, tyVars, c =>
    match t with
    | .true_ => oret (.boolean, c)
    | .false_ => oret (.boolean, c)
    | .if_ cond thn els =>
      obind (typecheck fuel cond tyEnv tyVars c) fun q1 =>
      match q1.1 with
      | .boolean =>
        obind (typecheck fuel thn tyEnv tyVars q1.2) fun q2 =>
        obind (typecheck fuel els tyEnv tyVars q2.2) fun q3 =>
        obind (typeEq fuel q2.1 q3.1 tyVars) fun b =>
        if b then oret (q2.1, q3.2) else oerr "then and else have different types"
      | _ => oerr "boolean expected"
    | .number _ => oret (.number, c)
    | .add left right =>
      obind (typecheck fuel left tyEnv tyVars c) fun q1 =>
      match q1.1 with
      | .number =>
        obind (typecheck fuel right tyEnv tyVars q1.2) fun q2 =>
        match q2.1 with
        | .number => oret (.number, q2.2)
        | _ => oerr "number expected"
      | _ => oerr "number expected"
    | .var name =>
      match tyEnv name with
      | none => oerr ("unknown variable: " ++ name)
      | some ty => oret (ty, c)
    | .func params body =>
      obind (typecheck fuel body (extendAll tyEnv params) tyVars c) fun q =>
      oret (.func params q.1, q.2)
    | .call fn args =>
      obind (typecheck fuel fn tyEnv tyVars c) fun q =>
      match q.1 with
      | .func params retType =>
        if args.length = params.length then
          obind (checkArgsP (fun a cc => typecheck fuel a tyEnv tyVars cc)
              (fun t1 t2 => typeEq fuel t1 t2 tyVars) args params 0 q.2) fun c2 =>
          oret (retType, c2)
        else oerr "wrong number of arguments"
      | _ => oerr "function expected"
    | .seq body rest =>
      obind (typecheck fuel body tyEnv tyVars c) fun q =>
      typecheck fuel rest tyEnv tyVars q.2
    | .constT name init rest =>
      obind (typecheck fuel init tyEnv tyVars c) fun q =>
      typecheck fuel rest (extend tyEnv name q.1) tyVars q.2
    | .typeAbs typeParams body =>
      obind (typecheck fuel body tyEnv (tyVars ++ typeParams) c) fun q =>
      oret (.typeAbs typeParams q.1, q.2)
    | .typeApp typeAbsTerm typeArgs =>
      obind (typecheck fuel typeAbsTerm tyEnv tyVars c) fun q =>
      match q.1 with
      | .typeAbs typeParams body =>
        if typeParams.length = typeArgs.length then
          (instantiate (subst fuel) (typeParams.zip typeArgs) body q.2).map Except.ok
        else oerr "wrong number of type arguments"
      | _ => oerr "type abstraction expected"

/-- Claim C7: in the `typeApp` case, a non-`TypeAbs` synthesized type fails
with the type-abstraction-expected diagnostic; a `TypeAbs` of the wrong arity
fails with the wrong-number-of-type-arguments diagnostic; otherwise the result
is the body with `subst` folded once per `(typeParams[i], typeArgs[i])` pair
in order.  The final conjunct runs the `poly.ts` example `f = <T>(x: T) => x;
f<number>` end to end. -/
theorem c7_typeapp :
    (∀ (fuel : Nat) (t : Term) (typeArgs : List Ty) (tyEnv : TyEnv Ty)
        (tyVars : List String) (c : Nat) (ty : Ty) (c1 : Nat),
      typecheck fuel t tyEnv tyVars c = some (.ok (ty, c1)) →
      (∀ typeParams body, ty ≠ .typeAbs typeParams body) →
      typecheck (fuel+1) (.typeApp t typeArgs) tyEnv tyVars c =
        some (.error "type abstraction expected")) ∧
    (∀ (fuel : Nat) (t : Term) (typeArgs : List Ty) (tyEnv : TyEnv Ty)
        (tyVars : List String) (c : Nat) (typeParams : List String) (body : Ty) (c1 : Nat),
      typecheck fuel t tyEnv tyVars c = some (.ok (.typeAbs typeParams body, c1)) →
      typeParams.length ≠ typeArgs.length →
      typecheck (fuel+1) (.typeApp t typeArgs) tyEnv tyVars c =
        some (.error "wrong number of type arguments")) ∧
    (∀ (fuel : Nat) (t : Term) (typeArgs : List Ty) (tyEnv : TyEnv Ty)
        (tyVars : List String) (c : Nat) (typeParams : List String) (body : Ty) (c1 : Nat),
      typecheck fuel t tyEnv tyVars c = some (.ok (.typeAbs typeParams body, c1)) →
      typeParams.length = typeArgs.length →
      typecheck (fuel+1) (.typeApp t typeArgs) tyEnv tyVars c =
        (instantiate (subst fuel) (typeParams.zip typeArgs) body c1).map Except.ok) ∧
    typecheck 20
      (.constT "f" (.typeAbs ["T"] (.func [("x", .typeVar "T")] (.var "x")))
        (.typeApp (.var "f") [.number]))
      emptyEnv [] 1 =
      some (.ok (.func [("x", .number)] .number, 1)) := by
  refine ⟨?_, ?_, ?_, by rfl⟩
  · intro fuel t typeArgs tyEnv tyVars c ty c1 h hne
    simp only [typecheck, h, obind]
    cases ty with
    | typeAbs tps body => exact absurd rfl (hne tps body)
    | boolean => rfl
    | number => rfl
    | func ps r => rfl
    | typeVar n => rfl
  · intro fuel t typeArgs tyEnv tyVars c typeParams body c1 h hne
    simp only [typecheck, h, obind]
    rw [if_neg hne]
    rfl
  · intro fuel t typeArgs tyEnv tyVars c typeParams body c1 h heq
    simp only [typecheck, h, obind]
    rw [if_pos heq]

/-- Witness for C7 at concrete instances of all three branches. -/
theorem c7_typeapp_witness :
    (typecheck 1 .true_ emptyEnv [] 5 = some (.ok (.boolean, 5)) ∧
      typecheck 2 (.typeApp .true_ []) emptyEnv [] 5 =
        some (.error "type abstraction expected")) ∧
    (typecheck 2 (.typeAbs ["T"] .true_) emptyEnv [] 5 =
        some (.ok (.typeAbs ["T"] .boolean, 5)) ∧
      typecheck 3 (.typeApp (.typeAbs ["T"] .true_) []) emptyEnv [] 5 =
        some (.error "wrong number of type arguments")) ∧
    (typecheck 3 (.typeApp (.typeAbs ["T"] .true_) [.number]) emptyEnv [] 5 =
      (instantiate (subst 2) ((["T"] : List String).zip [Ty.number]) .boolean 5).map Except.ok) :=
  ⟨⟨by rfl,
    c7_typeapp.1 1 .true_ [] emptyEnv [] 5 .boolean 5 (by rfl) (by intro tps body; simp)⟩,
   ⟨by rfl,
    c7_typeapp.2.1 2 (.typeAbs ["T"] .true_) [] emptyEnv [] 5 ["T"] .boolean 5 (by rfl) (by decide)⟩,
   c7_typeapp.2.2.1 2 (.typeAbs ["T"] .true_) [.number] emptyEnv [] 5 ["T"] .boolean 5
     (by rfl) (by decide)⟩

/-- A term whose checking runs `subst` under a nested binder, so the result
spells out a counter-generated bound name. -/
def c9Term : Term :=
  .typeApp
    (.typeAbs ["T"]
      (.func [("arg", .typeAbs ["U"] (.func [("x", .typeVar "T")] .boolean))] .true_))
    [.number]

def c9Result (u : String) : Ty :=
  .func [("arg", .typeAbs [u] (.func [("x", .number)] .boolean))] .boolean

/-- Counterexample for claim C9: the checker's result depends on the state the
module-global fresh-name counter was left in by earlier invocations.  The same
term, environment and bound-variable set checked with counter `1` and with
counter `2` yield structurally different types (the nested binder is renamed
to `U1` in one run and `U2` in the other). -/
theorem c9_counterexample :
    typecheck 20 c9Term emptyEnv [] 1 = some (.ok (c9Result "U1", 2)) ∧
    typecheck 20 c9Term emptyEnv [] 2 = some (.ok (c9Result "U2", 3)) ∧
    c9Result "U1" ≠ c9Result "U2" := by
  refine ⟨by rfl, by rfl, ?_⟩
  intro h
  simp only [c9Result, Ty.func.injEq, List.cons.injEq, Prod.mk.injEq, Ty.typeAbs.injEq,
    and_true, true_and] at h
  exact absurd h (by decide)

/-- Terms that contain no `typeApp` node (the only construct that invokes
`subst` and hence the fresh-name counter). -/
inductive NoTypeApp : Term → Prop where
  | true_ : NoTypeApp .true_
  | false_ : NoTypeApp .false_
  | if_ {cond thn els : Term} :
      NoTypeApp cond → NoTypeApp thn → NoTypeApp els → NoTypeApp (.if_ cond thn els)
  | number (n : Nat) : NoTypeApp (.number n)
  | add {left right : Term} :
      NoTypeApp left → NoTypeApp right → NoTypeApp (.add left right)
  | var (name : String) : NoTypeApp (.var name)
  | func {params : List (String × Ty)} {body : Term} :
      NoTypeApp body → NoTypeApp (.func params body)
  | call {fn : Term} {args : List Term} :
      NoTypeApp fn → (∀ a ∈ args, NoTypeApp a) → NoTypeApp (.call fn args)
  | seq {body rest : Term} :
      NoTypeApp body → NoTypeApp rest → NoTypeApp (.seq body rest)
  | constT {name : String} {init rest : Term} :
      NoTypeApp init → NoTypeApp rest → NoTypeApp (.constT name init rest)
  | typeAbs {typeParams : List String} {body : Term} :
      NoTypeApp body → NoTypeApp (.typeAbs typeParams body)

theorem checkArgsP_counter {fuel : Nat} {tyEnv : TyEnv Ty} {tyVars : List String}
    (eqc : Ty → Ty → Option (Except String Bool)) :
    ∀ (args : List Term) (ps : List (String × Ty)) (i c c' : Nat),
      (∀ a ∈ args, ∀ cc cc' : Nat,
        typecheck fuel a tyEnv tyVars cc =
          (typecheck fuel a tyEnv tyVars cc').map (Except.map fun q => (q.1, cc))) →
      checkArgsP (fun a cc => typecheck fuel a tyEnv tyVars cc) eqc args ps i c =
        (checkArgsP (fun a cc => typecheck fuel a tyEnv tyVars cc) eqc args ps i c').map
          (Except.map fun _ => c) := by
  intro args
  induction args with
  | nil => intro ps i c c' hpt; cases ps <;> rfl
  | cons a args ih =>
    intro ps i c c' hpt
    cases ps with
    | nil => rfl
    | cons p ps =>
      simp only [checkArgsP]
      have ha := hpt a (by simp) c c'
      cases hres : typecheck fuel a tyEnv tyVars c' with
      | none => rw [hres] at ha; simp at ha; simp [ha, hres, obind_none]
      | some r =>
        cases r with
        | error e =>
          rw [hres] at ha
          simp only [Option.map_some', Except.map] at ha
          rw [ha]
          rfl
        | ok q =>
          rw [hres] at ha
          simp only [Option.map_some', Except.map] at ha
          rw [ha]
          simp only [obind_some_ok]
          cases heq : eqc q.1 p.2 with
          | none => simp [obind_none]
          | some r2 =>
            cases r2 with
            | error e => rfl
            | ok b =>
              cases b with
              | false => rfl
              | true =>
                simp only [obind_some_ok, if_pos rfl]
                exact ih ps (i+1) c q.2 (fun a1 ha1 => hpt a1 (by simp [ha1]))

/-- Claim C9 (amended): the checker is deterministic given the counter, and on
terms without `typeApp` — the only construct that calls `subst` — the result
does not depend on the fresh-name counter at all: checking with counter `c`
returns the same type (and the same diagnostic on failure) as checking with
any other counter `c'`, and returns the counter unchanged.  (In general the
result type can differ across counter states only in the spelling of
counter-generated bound names, as the counterexample shows.) -/
theorem c9_counter_independent :
    ∀ (fuel : Nat) (t : Term) (tyEnv : TyEnv Ty) (tyVars : List String) (c c' : Nat),
      NoTypeApp t →
      typecheck fuel t tyEnv tyVars c =
        (typecheck fuel t tyEnv tyVars c').map (Except.map fun q => (q.1, c)) := by
  intro fuel
  induction fuel with
  | zero => intro t tyEnv tyVars c c' hnt; rfl
  | succ fuel ih =>
    intro t tyEnv tyVars c c' hnt
    cases hnt with
    | true_ => rfl
    | false_ => rfl
    | number n => rfl
    | var name =>
      simp only [typecheck]
      cases tyEnv name <;> rfl
    | if_ hcond hthn hels =>
      rename_i cond thn els
      simp only [typecheck]
      have hc := ih cond tyEnv tyVars c c' hcond
      cases hres : typecheck fuel cond tyEnv tyVars c' with
      | none => rw [hres] at hc; simp at hc; simp [hc, obind_none]
      | some r =>
        cases r with
        | error e =>
          rw [hres] at hc; simp only [Option.map_some', Except.map] at hc
          rw [hc]; rfl
        | ok q =>
          rw [hres] at hc; simp only [Option.map_some', Except.map] at hc
          rw [hc]
          simp only [obind_some_ok]
          cases q.1 with
          | boolean =>
            have ht := ih thn tyEnv tyVars c q.2 hthn
            cases hres2 : typecheck fuel thn tyEnv tyVars q.2 with
            | none => rw [hres2] at ht; simp at ht; simp [ht, hres2, obind_none]
            | some r2 =>
              cases r2 with
              | error e =>
                rw [hres2] at ht; simp only [Option.map_some', Except.map] at ht
                rw [ht]; rfl
              | ok q2 =>
                rw [hres2] at ht; simp only [Option.map_some', Except.map] at ht
                rw [ht]
                simp only [obind_some_ok]
                have he := ih els tyEnv tyVars c q2.2 hels
                cases hres3 : typecheck fuel els tyEnv tyVars q2.2 with
                | none => rw [hres3] at he; simp at he; simp [he, hres3, obind_none]
                | some r3 =>
                  cases r3 with
                  | error e =>
                    rw [hres3] at he; simp only [Option.map_some', Except.map] at he
                    rw [he]; rfl
                  | ok q3 =>
                    rw [hres3] at he; simp only [Option.map_some', Except.map] at he
                    rw [he]
                    simp only [obind_some_ok]
                    cases typeEq fuel q2.1 q3.1 tyVars with
                    | none => rfl
                    | some r4 =>
                      cases r4 with
                      | error e => rfl
                      | ok b => cases b <;> rfl
          | number => rfl
          | func ps r => rfl
          | typeAbs tps b => rfl
          | typeVar n => rfl
    | add hleft hright =>
      rename_i left right
      simp only [typecheck]
      have hl := ih left tyEnv tyVars c c' hleft
      cases hres : typecheck fuel left tyEnv tyVars c' with
      | none => rw [hres] at hl; simp at hl; simp [hl, obind_none]
      | some r =>
        cases r with
        | error e =>
          rw [hres] at hl; simp only [Option.map_some', Except.map] at hl
          rw [hl]; rfl
        | ok q =>
          rw [hres] at hl; simp only [Option.map_some', Except.map] at hl
          rw [hl]
          simp only [obind_some_ok]
          cases q.1 with
          | number =>
            have hr := ih right tyEnv tyVars c q.2 hright
            cases hres2 : typecheck fuel right tyEnv tyVars q.2 with
            | none => rw [hres2] at hr; simp at hr; simp [hr, hres2, obind_none]
            | some r2 =>
              cases r2 with
              | error e =>
                rw [hres2] at hr; simp only [Option.map_some', Except.map] at hr
                rw [hr]; rfl
              | ok q2 =>
                rw [hres2] at hr; simp only [Option.map_some', Except.map] at hr
                rw [hr]
                simp only [obind_some_ok]
                cases q2.1 <;> rfl
          | boolean => rfl
          | func ps r => rfl
          | typeAbs tps b => rfl
          | typeVar n => rfl
    | func hbody =>
      rename_i params body
      simp only [typecheck]
      have hb := ih body (extendAll tyEnv params) tyVars c c' hbody
      cases hres : typecheck fuel body (extendAll tyEnv params) tyVars c' with
      | none => rw [hres] at hb; simp at hb; simp [hb, obind_none]
      | some r =>
        cases r with
        | error e =>
          rw [hres] at hb; simp only [Option.map_some', Except.map] at hb
          rw [hb]; rfl
        | ok q =>
          rw [hres] at hb; simp only [Option.map_some', Except.map] at hb
          rw [hb]; rfl
    | call hfn hargs =>
      rename_i fn args
      simp only [typecheck]
      have hf := ih fn tyEnv tyVars c c' hfn
      cases hres : typecheck fuel fn tyEnv tyVars c' with
      | none => rw [hres] at hf; simp at hf; simp [hf, obind_none]
      | some r =>
        cases r with
        | error e =>
          rw [hres] at hf; simp only [Option.map_some', Except.map] at hf
          rw [hf]; rfl
        | ok q =>
          rw [hres] at hf; simp only [Option.map_some', Except.map] at hf
          rw [hf]
          simp only [obind_some_ok]
          cases q.1 with
          | func params retType =>
            dsimp only
            by_cases hlen : args.length = params.length
            · rw [if_pos hlen, if_pos hlen]
              have hargsInd := checkArgsP_counter
                (fun t1 t2 => typeEq fuel t1 t2 tyVars) args params 0 c q.2
                (fun a ha cc cc' => ih a tyEnv tyVars cc cc' (hargs a ha))
              cases hres2 : checkArgsP (fun a cc => typecheck fuel a tyEnv tyVars cc)
                  (fun t1 t2 => typeEq fuel t1 t2 tyVars) args params 0 q.2 with
              | none => rw [hres2] at hargsInd; simp at hargsInd; simp [hargsInd, obind_none]
              | some r2 =>
                cases r2 with
                | error e =>
                  rw [hres2] at hargsInd
                  simp only [Option.map_some', Except.map] at hargsInd
                  rw [hargsInd]; rfl
                | ok c2 =>
                  rw [hres2] at hargsInd
                  simp only [Option.map_some', Except.map] at hargsInd
                  rw [hargsInd]; rfl
            · rw [if_neg hlen, if_neg hlen]; rfl
          | boolean => rfl
          | number => rfl
          | typeAbs tps b => rfl
          | typeVar n => rfl
    | seq hbody hrest =>
      rename_i body rest
      simp only [typecheck]
      have hb := ih body tyEnv tyVars c c' hbody
      cases hres : typecheck fuel body tyEnv tyVars c' with
      | none => rw [hres] at hb; simp at hb; simp [hb, obind_none]
      | some r =>
        cases r with
        | error e =>
          rw [hres] at hb; simp only [Option.map_some', Except.map] at hb
          rw [hb]; rfl
        | ok q =>
          rw [hres] at hb; simp only [Option.map_some', Except.map] at hb
          rw [hb]
          simp only [obind_some_ok]
          exact ih rest tyEnv tyVars c q.2 hrest
    | constT hinit hrest =>
      rename_i name init rest
      simp only [typecheck]
      have hi := ih init tyEnv tyVars c c' hinit
      cases hres : typecheck fuel init tyEnv tyVars c' with
      | none => rw [hres] at hi; simp at hi; simp [hi, obind_none]
      | some r =>
        cases r with
        | error e =>
          rw [hres] at hi; simp only [Option.map_some', Except.map] at hi
          rw [hi]; rfl
        | ok q =>
          rw [hres] at hi; simp only [Option.map_some', Except.map] at hi
          rw [hi]
          simp only [obind_some_ok]
          exact ih rest (extend tyEnv name q.1) tyVars c q.2 hrest
    | typeAbs hbody =>
      rename_i typeParams body
      simp only [typecheck]
      have hb := ih body tyEnv (tyVars ++ typeParams) c c' hbody
      cases hres : typecheck fuel body tyEnv (tyVars ++ typeParams) c' with
      | none => rw [hres] at hb; simp at hb; simp [hb, obind_none]
      | some r =>
        cases r with
        | error e =>
          rw [hres] at hb; simp only [Option.map_some', Except.map] at hb
          rw [hb]; rfl
        | ok q =>
          rw [hres] at hb; simp only [Option.map_some', Except.map] at hb
          rw [hb]; rfl

/-- Witness for C9 (amended) at a concrete instance. -/
theorem c9_counter_independent_witness :
    NoTypeApp (.add (.number 1) (.number 2)) ∧
    typecheck 5 (.add (.number 1) (.number 2)) emptyEnv [] 1 =
      (typecheck 5 (.add (.number 1) (.number 2)) emptyEnv [] 42).map
        (Except.map fun q => (q.1, 1)) :=
  ⟨NoTypeApp.add (.number 1) (.number 2),
   c9_counter_independent 5 (.add (.number 1) (.number 2)) emptyEnv [] 1 42
     (NoTypeApp.add (.number 1) (.number 2))⟩

end Poly

namespace Rec

/-!
## The equi-recursive-types variant (`rec.ts`)

`Type` adds `Rec(name, type)` and `TypeVar`.  Equality is decided
coinductively by `typeEqSub` with a visited list `seen` of unexpanded pairs,
checked by the naive structural comparator `typeEqNaive` before either side
is unfolded with `simplifyType`.
-/

inductive Ty where
  | boolean
  | number
  | func (params : List (String × Ty)) (retType : Ty)
  | object (props : List (String × Ty))
  | recT (name : String) (body : Ty)
  | typeVar (name : String)

/-- `ty.tag`, used in diagnostics. -/
def tagOf : Ty → String
  | .boolean => "Boolean"
  | .number => "Number"
  | .func _ _ => "Func"
  | .object _ => "Object"
  | .recT _ _ => "Rec"
  | .typeVar _ => "TypeVar"

def isRec : Ty → Bool
  | .recT _ _ => true
  | _ => false

/-- The per-prop check with exception propagation, for the object cases. -/
def propCheckEx {τ : Type} (rel : τ → τ → Option (Except String Bool))
    (props1 : List (String × τ)) (p2 : String × τ) : Option (Except String Bool) :=
  match findProp? props1 p2.1 with
  | none => oret false
  | some p1 => rel p1.2 p2.2

/-- `typeEqNaive(ty1, ty2, map)` from `rec.ts`: structural, capture-insensitive
equality; bound `Rec` names are tracked in `map`, and a left `TypeVar` with no
entry throws `unknown type variable: ...`. -/
def typeEqNaive : Nat → Ty → Ty → TyEnv String → Option (Except String Bool)
  | 0, _, _, _ => none
  | fuel+1, ty1, ty2, map =>
    match ty2 with
    | .boolean => some (.ok (match ty1 with | .boolean => true | _ => false))
    | .number => some (.ok (match ty1 with | .number => true | _ => false))
    | .func params2 retType2 =>
      match ty1 with
      | .func params1 retType1 =>
        if params1.length = params2.length then
          obind (exAll (fun pq => typeEqNaive fuel pq.1.2 pq.2.2 map) (params1.zip params2))
            fun b => if b then typeEqNaive fuel retType1 retType2 map else oret false
        else oret false
      | _ => oret false
    | .object props2 =>
      match ty1 with
      | .object props1 =>
        if props1.length = props2.length then
          exAll (propCheckEx (fun a b => typeEqNaive fuel a b map) props1) props2
        else oret false
      | _ => oret false
    | .recT name2 body2 =>
      match ty1 with
      | .recT name1 body1 => typeEqNaive fuel body1 body2 (extend map name1 name2)
      | _ => oret false
    | .typeVar name2 =>
      match ty1 with
      | .typeVar name1 =>
        match map name1 with
        | none => oerr ("unknown type variable: " ++ name1)
        | some mapped => some (.ok (mapped = name2))
      | _ => oret false

/-- The parameter/prop list traversal of `expandType`. -/
def expandParams (ek : Ty → Option Ty) : List (String × Ty) → Option (List (String × Ty))
  | [] => some []
  | p :: rest => (ek p.2).bind fun t2 => (expandParams ek rest).map fun r => (p.1, t2) :: r

/-- `expandType(ty, tyVarName, repTy)` from `rec.ts`: replace free
`TypeVar(tyVarName)` by `repTy`; a `Rec` binding the same name shadows it. -/
def expandType : Nat → Ty → String → Ty → Option Ty
  | 0, _, _, _ => none
  | fuel+1, ty, tyVarName, repTy =>
    match ty with
    | .boolean => some .boolean
    | .number => some .number
    | .func params retType =>
      (expandParams (fun t => expandType fuel t tyVarName repTy) params).bind fun ps2 =>
      (expandType fuel retType tyVarName repTy).map fun r => .func ps2 r
    | .object props =>
      (expandParams (fun t => expandType fuel t tyVarName repTy) props).map fun ps2 =>
      .object ps2
    | .recT name body =>
      if name = tyVarName then some (.recT name body)
      else (expandType fuel body tyVarName repTy).map fun b2 => .recT name b2
    | .typeVar name => some (if name = tyVarName then repTy else .typeVar name)

/-- `simplifyType(ty)` from `rec.ts`: repeatedly unfold a top-level `Rec` by
substituting the whole type for its bound name; diverges (returns `none` at
every fuel) on non-contractive types such as `Rec("S", TypeVar("S"))`. -/
def simplifyType : Nat → Ty → Option Ty
  | 0, _ => none
  | fuel+1, ty =>
    match ty with
    | .recT name body =>
      (expandType fuel body name (.recT name body)).bind fun u => simplifyType fuel u
    | _ => some ty

/-- The `for (const [ty1_, ty2_] of seen)` loop of `typeEqSub`: a pair counts
as seen when both components compare naively equal (with an empty map). -/
def seenLoop (naiveK : Ty → Ty → Option (Except String Bool)) :
    List (Ty × Ty) → Ty → Ty → Option (Except String Bool)
  | [], _, _ => oret false
  | p :: rest, ty1, ty2 =>
    obind (naiveK p.1 ty1) fun b1 =>
    if b1 then
      obind (naiveK p.2 ty2) fun b2 =>
      if b2 then oret true else seenLoop naiveK rest ty1 ty2
    else seenLoop naiveK rest ty1 ty2

/-- `typeEqSub(ty1, ty2, seen)` from `rec.ts`: the coinductive comparator.
Before unfolding, the unexpanded pair is recorded in `seen`; a pair already
seen is equal by assumption. -/
def typeEqSub : Nat → Ty → Ty → List (Ty × Ty) → Option (Except String Bool)
  | 0, _, _, _ => none
  | fuel+1, ty1, ty2, seen =>
    obind (seenLoop (fun a b => typeEqNaive fuel a b emptyEnv) seen ty1 ty2) fun found =>
    if found then oret true
    else if isRec ty1 then
      obind ((simplifyType fuel ty1).map Except.ok) fun s =>
      typeEqSub fuel s ty2 (seen ++ [(ty1, ty2)])
    else if isRec ty2 then
      obind ((simplifyType fuel ty2).map Except.ok) fun s =>
      typeEqSub fuel ty1 s (seen ++ [(ty1, ty2)])
    else
      match ty2 with
      | .boolean => some (.ok (match ty1 with | .boolean => true | _ => false))
      | .number => some (.ok (match ty1 with | .number => true | _ => false))
      | .func params2 retType2 =>
        match ty1 with
        | .func params1 retType1 =>
          if params1.length = params2.length then
            obind (exAll (fun pq => typeEqSub fuel pq.1.2 pq.2.2 seen) (params1.zip params2))
              fun b => if b then typeEqSub fuel retType1 retType2 seen else oret false
          else oret false
        | _ => oret false
      | .object props2 =>
        match ty1 with
        | .object props1 =>
          if props1.length = props2.length then
            exAll (propCheckEx (fun a b => typeEqSub fuel a b seen) props1) props2
          else oret false
        | _ => oret false
      | .recT _ _ => oret false
      | .typeVar _ => some (.error "unreachable")

/-- `typeEq(ty1, ty2)` from `rec.ts`. -/
def typeEq (fuel : Nat) (ty1 ty2 : Ty) : Option (Except String Bool) :=
  typeEqSub fuel ty1 ty2 []

/-- `Term` from `rec.ts` (as `recfunc.ts`, without a declared return type on
plain functions). -/
inductive Term where
  | true_
  | false_
  | if_ (cond thn els : Term)
  | number (n : Nat)
  | add (left right : Term)
  | var (name : String)
  | func (params : List (String × Ty)) (body : Term)
  | call (fn : Term) (args : List Term)
  | seq (body rest : Term)
  | constT (name : String) (init rest : Term)
  | objectNew (props : List (String × Term))
  | objectGet (obj : Term) (propName : String)
  | recFunc (funcName : String) (params : List (String × Ty)) (retType : Ty)
      (body rest : Term)

/-- The argument loop of the `call` case with an exception-capable
comparison. -/
def checkArgsEx {α τ : Type} (tc : α → Option (Except String τ))
    (eqc : τ → τ → Option (Except String Bool)) (tagf : τ → String) :
    List α → List (String × τ) → Nat → Option (Except String Unit)
  | [], _, _ => oret ()
  | _ :: _, [], _ => oret ()
  | a :: args, p :: ps, i =>
    obind (tc a) fun argTy =>
    obind (eqc argTy p.2) fun b =>
    if b then checkArgsEx tc eqc tagf args ps (i+1)
    else oerr ("parameter type mismatch: [" ++ toString i ++ "]: expected " ++
      tagf p.2 ++ ", got " ++ tagf argTy)

/-- `typecheck(t, tyEnv)` from `rec.ts`, fuel-indexed: `simplifyType` is
applied to the synthesized type at every elimination position (`if`
condition, `add` operands, `call` callee, `objectGet` object). -/
def typecheck : Nat → Term → TyEnv Ty → Option (Except String Ty)
  | 0, _, _ => none
  | fuel+1, t, tyEnv =>
    match t with
    | .true_ => oret .boolean
    | .false_ => oret .boolean
    | .if_ cond thn els =>
      obind (typecheck fuel cond tyEnv) fun condTy0 =>
      obind ((simplifyType fuel condTy0).map Except.ok) fun condTy =>
      match condTy with
      | .boolean =>
        obind (typecheck fuel thn tyEnv) fun thnTy =>
        obind (typecheck fuel els tyEnv) fun elsTy =>
        obind (typeEq fuel thnTy elsTy) fun b =>
        if b then oret thnTy else oerr "then and else have different types"
      | _ => oerr "boolean expected"
    | .number _ => oret .number
    | .add left right =>
      obind (typecheck fuel left tyEnv) fun leftTy0 =>
      obind ((simplifyType fuel leftTy0).map Except.ok) fun leftTy =>
      match leftTy with
      | .number =>
        obind (typecheck fuel right tyEnv) fun rightTy0 =>
        obind ((simplifyType fuel rightTy0).map Except.ok) fun rightTy =>
        match rightTy with
        | .number => oret .number
        | _ => oerr "number expected"
      | _ => oerr "number expected"
    | .var name =>
      match tyEnv name with
      | none => oerr ("unknown variable: " ++ name)
      | some ty => oret ty
    | .func params body =>
      obind (typecheck fuel body (extendAll tyEnv params)) fun bodyTy =>
      oret (.func params bodyTy)
    | .call fn args =>
      obind (typecheck fuel fn tyEnv) fun funcTy0 =>
      obind ((simplifyType fuel funcTy0).map Except.ok) fun funcTy =>
      match funcTy with
      | .func params retType =>
        if args.length = params.length then
          obind (checkArgsEx (fun a => typecheck fuel a tyEnv) (typeEq fuel) tagOf args params 0)
            fun _ => oret retType
        else oerr "wrong number of arguments"
      | _ => oerr "function expected"
    | .seq body rest =>
      obind (typecheck fuel body tyEnv) fun _ => typecheck fuel rest tyEnv
    | .constT name init rest =>
      obind (typecheck fuel init tyEnv) fun ty =>
      typecheck fuel rest (extend tyEnv name ty)
    | .objectNew props =>
      obind (checkProps (fun a => typecheck fuel a tyEnv) props) fun propTys =>
      oret (.object propTys)
    | .objectGet obj propName =>
      obind (typecheck fuel obj tyEnv) fun objectTy0 =>
      obind ((simplifyType fuel objectTy0).map Except.ok) fun objectTy =>
      match objectTy with
      | .object props =>
        match findProp? props propName with
        | none => oerr ("unknown property: " ++ propName)
        | some p => oret p.2
      | _ => oerr "object expected"
    | .recFunc funcName params retType body rest =>
      obind (typecheck fuel body (extendAll (extend tyEnv funcName (.func params retType)) params))
        fun bodyTy =>
      obind (typeEq fuel retType bodyTy) fun b =>
      if b then
        typecheck fuel rest
          (extend (extendAll (extend tyEnv funcName (.func params retType)) params)
            funcName (.func params retType))
      else oerr "wrong return type"

/-- The `NumStream` recursive type of the `rec.ts` example:
`Rec("S", Object{num: Number, rest: () => TypeVar("S")})`. -/
def numStream : Ty :=
  .recT "S" (.object [("num", .number), ("rest", .func [] (.typeVar "S"))])

/-- One-step unfolding of `numStream`. -/
def numStreamU : Ty := .object [("num", .number), ("rest", .func [] numStream)]

/-- The non-contractive recursive type `Rec("S", TypeVar("S"))`: its unfolding
is itself, so `simplifyType` — and with it the whole comparator — never
returns. -/
def badT : Ty := .recT "S" (.typeVar "S")

/-- The comparison of `t1` and `t2` runs out of any amount of fuel: the
embedded `typeEq` never produces a result, mirroring the unbounded recursion
of the TypeScript original on that input. -/
def TypeEqDiverges (t1 t2 : Ty) : Prop := ∀ fuel, typeEq fuel t1 t2 = none

theorem simplifyType_badT (fuel : Nat) : simplifyType fuel badT = none := by
  induction fuel with
  | zero => rfl
  | succ k ih =>
    cases k with
    | zero => rfl
    | succ j =>
      show (expandType (j+1) (.typeVar "S") "S" badT).bind (fun u => simplifyType (j+1) u) = none
      have hexp : expandType (j+1) (.typeVar "S") "S" badT = some badT := by
        simp [expandType, badT]
      rw [hexp, Option.some_bind]
      exact ih

theorem typeEq_badT_diverges : TypeEqDiverges badT badT := by
  intro fuel
  cases fuel with
  | zero => rfl
  | succ k =>
    show obind ((simplifyType k badT).map Except.ok)
        (fun s => typeEqSub k s badT [(badT, badT)]) = none
    rw [simplifyType_badT k]
    rfl

/-- Counterexample for claim C2: `typeEq` is not total on the equi-recursive
variant's well-formed types.  On the closed, finite-representation type
`Rec("S", TypeVar("S"))` — whose unfolding is itself — `typeEq(T, T)` never
terminates (the embedded comparator returns no result at any fuel), because
`simplifyType` recurses forever before the seen-list is ever consulted. -/
theorem c2_counterexample : TypeEqDiverges badT badT :=
  typeEq_badT_diverges

/-- Claim C2 (amended): reflexivity holds where the comparison terminates.
In the `recfunc.ts` variant `typeEq(T, T)` returns `true` for every type with
unique object prop names, at any fuel covering the size of `T` (the function
is total).  In the equi-recursive variant the coinductive comparator
`typeEqSub` (seen-list checked by `typeEqNaive` before unfolding) succeeds on
`Rec("S", Object{num: Number, rest: () => TypeVar("S")})` compared against
itself; but it does not terminate on every finite-representation pair — the
non-contractive `Rec("S", TypeVar("S"))` makes it loop. -/
theorem c2_typeEq_refl :
    (∀ (fuel : Nat) (ty : RecFunc.Ty), RecFunc.Wf ty → sizeOf ty ≤ fuel →
      RecFunc.typeEq fuel ty ty = some true) ∧
    typeEq 12 numStream numStream = some (.ok true) :=
  ⟨fun fuel ty => RecFunc.typeEq_refl fuel ty, by rfl⟩

/-- Witness for C2 (amended) at a concrete instance. -/
theorem c2_typeEq_refl_witness :
    (RecFunc.Wf (RecFunc.Ty.object [("num", .number)]) ∧
      sizeOf (RecFunc.Ty.object [("num", .number)]) ≤ 100000 ∧
      RecFunc.typeEq 100000 (.object [("num", .number)]) (.object [("num", .number)]) =
        some true) :=
  ⟨RecFunc.Wf.object (by decide)
      (by rintro p hp; simp only [List.mem_singleton] at hp; subst hp; exact RecFunc.Wf.number),
   by decide,
   c2_typeEq_refl.1 100000 _
     (RecFunc.Wf.object (by decide)
       (by rintro p hp; simp only [List.mem_singleton] at hp; subst hp; exact RecFunc.Wf.number))
     (by decide)⟩

/-- Counterexample for claim C8: fixed-point unfolding does not preserve
equality on every well-formed recursive type, because the comparison itself
need not terminate.  For `R = Rec("S", TypeVar("S"))` the one-step unfold
`U = expandType(body, "S", R)` is `R` itself, and `typeEq(R, U)` never
returns at any fuel. -/
theorem c8_counterexample :
    expandType 2 (.typeVar "S") "S" badT = some badT ∧ TypeEqDiverges badT badT :=
  ⟨by rfl, typeEq_badT_diverges⟩

/-- Claim C8 (amended): fixed-point unfolding preserves equality where the
comparison terminates; for the `NumStream` type `R = Rec("S", Object{num:
Number, rest: () => TypeVar("S")})`, with `U = expandType(body, "S", R)` (the
one-step unfold that `simplifyType` performs), `typeEq(R, U)` returns
`true`. -/
theorem c8_unfold_preserves_eq :
    expandType 10 (.object [("num", .number), ("rest", .func [] (.typeVar "S"))]) "S" numStream =
      some numStreamU ∧
    simplifyType 10 numStream = some numStreamU ∧
    typeEq 20 numStream numStreamU = some (.ok true) :=
  ⟨by rfl, by rfl, by rfl⟩

theorem simplifyType_not_isRec (fuel : Nat) :
    ∀ (ty s : Ty), simplifyType fuel ty = some s → isRec s = false := by
  induction fuel with
  | zero => intro ty s h; simp [simplifyType] at h
  | succ fuel ih =>
    intro ty s h
    cases ty with
    | recT name body =>
      simp only [simplifyType] at h
      cases hexp : expandType fuel body name (.recT name body) with
      | none => rw [hexp] at h; simp at h
      | some u =>
        rw [hexp, Option.some_bind] at h
        exact ih u s h
    | boolean => simp only [simplifyType, Option.some.injEq] at h; rw [← h]; rfl
    | number => simp only [simplifyType, Option.some.injEq] at h; rw [← h]; rfl
    | func ps r => simp only [simplifyType, Option.some.injEq] at h; rw [← h]; rfl
    | object ps => simp only [simplifyType, Option.some.injEq] at h; rw [← h]; rfl
    | typeVar n => simp only [simplifyType, Option.some.injEq] at h; rw [← h]; rfl

theorem simplifyType_idem {fuel : Nat} {ty s : Ty} (h : simplifyType fuel ty = some s) :
    simplifyType fuel s = some s := by
  have hnr := simplifyType_not_isRec fuel ty s h
  cases fuel with
  | zero => simp [simplifyType] at h
  | succ fuel =>
    cases s with
    | recT name body => simp [isRec] at hnr
    | boolean => rfl
    | number => rfl
    | func ps r => rfl
    | object ps => rfl
    | typeVar n => rfl

/-- Claim C10: a `Rec` wrapper is transparent at every elimination position.
If the scrutinee of an `objectGet` / `call` / `if` condition / `add` operand
synthesizes a type `ty` whose full unfolding via `simplifyType` is `s` with
the respectively expected tag, then checking the whole term is literally the
same as checking it with any scrutinee that synthesizes `s` directly — the
`Rec` wrapper alone never produces the object, function, boolean, or number
expected diagnostic. -/
theorem c10_rec_transparent :
    (∀ (fuel : Nat) (tyEnv : TyEnv Ty) (obj obj2 : Term) (propName : String) (ty s : Ty),
      typecheck fuel obj tyEnv = some (.ok ty) →
      simplifyType fuel ty = some s →
      tagOf s = "Object" →
      typecheck fuel obj2 tyEnv = some (.ok s) →
      typecheck (fuel+1) (.objectGet obj propName) tyEnv =
        typecheck (fuel+1) (.objectGet obj2 propName) tyEnv) ∧
    (∀ (fuel : Nat) (tyEnv : TyEnv Ty) (fn fn2 : Term) (args : List Term) (ty s : Ty),
      typecheck fuel fn tyEnv = some (.ok ty) →
      simplifyType fuel ty = some s →
      tagOf s = "Func" →
      typecheck fuel fn2 tyEnv = some (.ok s) →
      typecheck (fuel+1) (.call fn args) tyEnv =
        typecheck (fuel+1) (.call fn2 args) tyEnv) ∧
    (∀ (fuel : Nat) (tyEnv : TyEnv Ty) (cond cond2 thn els : Term) (ty s : Ty),
      typecheck fuel cond tyEnv = some (.ok ty) →
      simplifyType fuel ty = some s →
      tagOf s = "Boolean" →
      typecheck fuel cond2 tyEnv = some (.ok s) →
      typecheck (fuel+1) (.if_ cond thn els) tyEnv =
        typecheck (fuel+1) (.if_ cond2 thn els) tyEnv) ∧
    (∀ (fuel : Nat) (tyEnv : TyEnv Ty) (left left2 right : Term) (ty s : Ty),
      typecheck fuel left tyEnv = some (.ok ty) →
      simplifyType fuel ty = some s →
      tagOf s = "Number" →
      typecheck fuel left2 tyEnv = some (.ok s) →
      typecheck (fuel+1) (.add left right) tyEnv =
        typecheck (fuel+1) (.add left2 right) tyEnv) := by
  refine ⟨?_, ?_, ?_, ?_⟩
  · intro fuel tyEnv obj obj2 propName ty s h1 h2 htag h3
    have hs := simplifyType_idem h2
    simp only [typecheck, h1, h3, obind_some_ok, h2, hs, Option.map_some']
  · intro fuel tyEnv fn fn2 args ty s h1 h2 htag h3
    have hs := simplifyType_idem h2
    simp only [typecheck, h1, h3, obind_some_ok, h2, hs, Option.map_some']
  · intro fuel tyEnv cond cond2 thn els ty s h1 h2 htag h3
    have hs := simplifyType_idem h2
    simp only [typecheck, h1, h3, obind_some_ok, h2, hs, Option.map_some']
  · intro fuel tyEnv left left2 right ty s h1 h2 htag h3
    have hs := simplifyType_idem h2
    simp only [typecheck, h1, h3, obind_some_ok, h2, hs, Option.map_some']

/-- Environment for the C10 witness: each elimination position gets a
`Rec`-wrapped binding and its unfolded counterpart. -/
def c10Env : TyEnv Ty :=
  extend (extend (extend (extend (extend (extend (extend (extend emptyEnv
    "x" numStream) "y" numStreamU)
    "f" (.recT "F" (.func [] .number))) "g" (.func [] .number))
    "c" (.recT "B" .boolean)) "c2" .boolean)
    "n" (.recT "N" .number)) "n2" .number

/-- Witness for C10 at concrete instances (the `NumStream` object, a
`Rec`-wrapped function, boolean, and number). -/
theorem c10_rec_transparent_witness :
    (simplifyType 10 numStream = some numStreamU ∧
      typecheck 11 (.objectGet (.var "x") "num") c10Env =
        typecheck 11 (.objectGet (.var "y") "num") c10Env) ∧
    (simplifyType 10 (.recT "F" (.func [] .number)) = some (.func [] .number) ∧
      typecheck 11 (.call (.var "f") []) c10Env =
        typecheck 11 (.call (.var "g") []) c10Env) ∧
    (simplifyType 10 (.recT "B" .boolean) = some .boolean ∧
      typecheck 11 (.if_ (.var "c") (.number 1) (.number 2)) c10Env =
        typecheck 11 (.if_ (.var "c2") (.number 1) (.number 2)) c10Env) ∧
    (simplifyType 10 (.recT "N" .number) = some .number ∧
      typecheck 11 (.add (.var "n") (.number 1)) c10Env =
        typecheck 11 (.add (.var "n2") (.number 1)) c10Env) :=
  ⟨⟨by rfl,
    c10_rec_transparent.1 10 c10Env (.var "x") (.var "y") "num" numStream numStreamU
      (by rfl) (by rfl) (by rfl) (by rfl)⟩,
   ⟨by rfl,
    c10_rec_transparent.2.1 10 c10Env (.var "f") (.var "g") [] (.recT "F" (.func [] .number))
      (.func [] .number) (by rfl) (by rfl) (by rfl) (by rfl)⟩,
   ⟨by rfl,
    c10_rec_transparent.2.2.1 10 c10Env (.var "c") (.var "c2") (.number 1) (.number 2)
      (.recT "B" .boolean) .boolean (by rfl) (by rfl) (by rfl) (by rfl)⟩,
   ⟨by rfl,
    c10_rec_transparent.2.2.2 10 c10Env (.var "n") (.var "n2") (.number 1)
      (.recT "N" .number) .number (by rfl) (by rfl) (by rfl) (by rfl)⟩⟩

end Rec
